import Mathlib

/-!
# AstarNavi: the freespace-planner orchestration loop

A shallow embedding of `astar_navi.cpp` (the `AstarNavi` node of the
`freespace_planner` package) and the verification of its sweep controller.

Modelling conventions.

* `int` values (`cnt`, `index_x`, `index_y`, `N`, `ITER`, `area_search_`, the
  loop counters) are mathematical integers.  The C++ operators `/` and `%`
  truncate towards zero, so they are `Int.tdiv` and `Int.tmod`.  On a sweep
  with `N >= 1` and `ITER >= 1` whose size `N * N * ITER` fits in an `int`,
  every `int` value the loop computes fits as well (`int_values_fit`), so the
  model is exact there.
* `double` values are exact rationals.
* Messages keep the fields this file reads or writes.
* Effects on the outside world are recorded in the state: the calls made on the
  planner object `astar`, the messages handed to the two publishers, the text
  written to `fp`, and whether `exit` has been called.  What the outside world
  answers (queued subscriber messages, transform lookups, the planner's result
  and path, clock readings) is an input of each pass of the loop.
* Console logging is left out, except the line printed once per trial
  (`cnt`, `index_x`, `index_y`), kept as the structured list `trials`.
-/

namespace AstarNavi

/-! ## Messages -/

/-- The message `geometry_msgs::Point`. -/
structure Point where
  x : Rat
  y : Rat
  z : Rat
deriving DecidableEq

/-- The message `geometry_msgs::Quaternion`. -/
structure Quaternion where
  x : Rat
  y : Rat
  z : Rat
  w : Rat
deriving DecidableEq

/-- The message `geometry_msgs::Pose`. -/
structure Pose where
  position : Point
  orientation : Quaternion
deriving DecidableEq

/-- The message `std_msgs::Header`: time stamp and frame identifier. -/
structure Header where
  stamp : Nat
  frame_id : String
deriving DecidableEq

/-- The message `geometry_msgs::PoseStamped`. -/
structure PoseStamped where
  header : Header
  pose : Pose
deriving DecidableEq

/-- The message `nav_msgs::Path`. -/
structure Path where
  header : Header
  poses : List PoseStamped
deriving DecidableEq

/-- The message `geometry_msgs::Vector3`. -/
structure Vector3 where
  x : Rat
  y : Rat
  z : Rat
deriving DecidableEq

/-- The message `geometry_msgs::Twist`. -/
structure Twist where
  linear : Vector3
  angular : Vector3
deriving DecidableEq

/-- The message `geometry_msgs::TwistStamped`. -/
structure TwistStamped where
  header : Header
  twist : Twist
deriving DecidableEq

/-- The message `autoware_msgs::Waypoint`: the pose and twist of a waypoint. -/
structure Waypoint where
  pose : PoseStamped
  twist : TwistStamped
deriving DecidableEq

/-- The message `autoware_msgs::Lane`. -/
structure Lane where
  header : Header
  increment : Int
  waypoints : List Waypoint
deriving DecidableEq

/-- The message `autoware_msgs::LaneArray`. -/
structure LaneArray where
  lanes : List Lane
deriving DecidableEq

/-- The message `nav_msgs::MapMetaData`: the origin of the grid. -/
structure MapMetaData where
  origin : Pose
deriving DecidableEq

/-- The message `nav_msgs::OccupancyGrid`. -/
structure OccupancyGrid where
  header : Header
  info : MapMetaData
  data : List Int
deriving DecidableEq

/-- The value of a default-constructed `std_msgs::Header`. -/
def Header.empty : Header := { stamp := 0, frame_id := "" }

/-- The value of a default-constructed `geometry_msgs::Pose`. -/
def Pose.empty : Pose :=
  { position := { x := 0, y := 0, z := 0 }, orientation := { x := 0, y := 0, z := 0, w := 0 } }

/-- The value of a default-constructed `geometry_msgs::PoseStamped`. -/
def PoseStamped.empty : PoseStamped := { header := Header.empty, pose := Pose.empty }

/-- The value of a default-constructed `geometry_msgs::TwistStamped`. -/
def TwistStamped.empty : TwistStamped :=
  { header := Header.empty,
    twist := { linear := { x := 0, y := 0, z := 0 }, angular := { x := 0, y := 0, z := 0 } } }

/-- The value of a default-constructed `nav_msgs::OccupancyGrid`. -/
def OccupancyGrid.empty : OccupancyGrid :=
  { header := Header.empty, info := { origin := Pose.empty }, data := [] }

/-! ## Transforms -/

/-- Modelled from the spec: `tf::Transform` and `transformPose` (declared in the
planner library, not in this file).  The spec calls a transform "a rigid mapping
between two named frames"; it is kept as its action on poses, and no property
of that action is assumed. -/
structure Transform where
  apply : Pose → Pose

/-- Modelled from the spec: `transformPose(pose, tf)` converts `pose` with the
transform `tf`. -/
def transformPose (pose : Pose) (tf : Transform) : Pose := tf.apply pose

/-- The transform listener `tf_listener_` as seen during one tick:
`lookupTransform source target` is the transform it finds, or `none` when it
throws `tf::TransformException`; `stf` is the value of the default-constructed
`tf::StampedTransform` that `getTransform` returns in that case. -/
structure TfListener where
  lookupTransform : String → String → Option Transform
  stf : Transform

/-- The method `AstarNavi::getTransform`: the looked-up transform, and on a
lookup failure (logged) the default-constructed one. -/
def getTransform (tf_listener_ : TfListener) (source target : String) : Transform :=
  match tf_listener_.lookupTransform source target with
  | some t => t
  | none => tf_listener_.stf

/-! ## Controller state -/

/-- A call made on the planner object `astar`. -/
inductive AstarCall where
  | astarInit (costmap : OccupancyGrid)
  | makePlan (start goal : Pose)
  | reset
deriving DecidableEq

/-- The state of the node: the members of `AstarNavi`, the file-scope globals
`cnt`, `index_x`, `index_y`, `sum`, the locals `time_array`, `result_array` of
`run`, and the record of its effects. -/
structure State where
  waypoints_velocity_ : Rat
  update_rate_ : Rat
  N : Int
  RANGE : Rat
  ITER : Int
  area_search_ : Int
  costmap_initialized_ : Bool
  current_pose_initialized_ : Bool
  goal_pose_initialized_ : Bool
  costmap_ : OccupancyGrid
  local2costmap_ : Pose
  current_pose_local_ : PoseStamped
  current_pose_global_ : PoseStamped
  goal_pose_local_ : PoseStamped
  goal_pose_global_ : PoseStamped
  cnt : Int
  index_x : Int
  index_y : Int
  sum : Int → Int → Rat
  time_array : Int → Int → Rat
  result_array : Int → Int → Bool
  astar : List AstarCall
  lane_pub_ : List LaneArray
  visual_pub_ : List PoseStamped
  fp : List Char
  trials : List (Int × Int × Int)
  exited : Bool

/-- A message delivered to one of the three subscribers. -/
inductive Msg where
  | costmap (msg : OccupancyGrid)
  | current_pose (msg : PoseStamped)
  | goal (msg : PoseStamped)

/-- What the outside world supplies during one pass of the loop of `run`: the
messages dispatched by `ros::spinOnce`, the transform listener, the reading of
`ros::Time::now`, the value returned by `astar.makePlan`, the path returned by
`astar.getPath`, and the microseconds measured around the planning call. -/
structure TickInput where
  msgs : List Msg
  tf_listener_ : TfListener
  now : Nat
  result : Bool
  path : Path
  elapsed_us : Int

/-- The configuration read by the constructor. -/
structure Params where
  waypoints_velocity_ : Rat := 5.0
  update_rate_ : Rat := 1.0
  N : Int := 11
  RANGE : Rat := 3.0
  ITER : Int := 10
  area_search_ : Int := 0

/-- The state when the loop of `run` is entered: the constructor has read the
parameters, cleared the three latches and zeroed `sum`; `run` has opened the
report and allocated `time_array` and `result_array`, whose content is whatever
`malloc` left there (the two arguments). -/
def initial (p : Params) (time_array : Int → Int → Rat) (result_array : Int → Int → Bool) :
    State :=
  { waypoints_velocity_ := p.waypoints_velocity_
    update_rate_ := p.update_rate_
    N := p.N
    RANGE := p.RANGE
    ITER := p.ITER
    area_search_ := p.area_search_
    costmap_initialized_ := false
    current_pose_initialized_ := false
    goal_pose_initialized_ := false
    costmap_ := OccupancyGrid.empty
    local2costmap_ := Pose.empty
    current_pose_local_ := PoseStamped.empty
    current_pose_global_ := PoseStamped.empty
    goal_pose_local_ := PoseStamped.empty
    goal_pose_global_ := PoseStamped.empty
    cnt := 0
    index_x := 0
    index_y := 0
    sum := fun _ _ => 0
    time_array := time_array
    result_array := result_array
    astar := []
    lane_pub_ := []
    visual_pub_ := []
    fp := []
    trials := []
    exited := false }

/-! ## Subscriber callbacks -/

/-- The method `AstarNavi::costmapCallback`. -/
def costmapCallback (s : State) (msg : OccupancyGrid) : State :=
  { s with
    costmap_ := msg
    local2costmap_ := msg.info.origin
    costmap_initialized_ := true }

/-- The method `AstarNavi::currentPoseCallback`. -/
def currentPoseCallback (s : State) (tf_listener_ : TfListener) (msg : PoseStamped) : State :=
  if !s.costmap_initialized_ then s
  else
    { s with
      current_pose_global_ := msg
      current_pose_local_ :=
        { pose := transformPose msg.pose
            (getTransform tf_listener_ s.costmap_.header.frame_id msg.header.frame_id)
          header := { frame_id := s.costmap_.header.frame_id, stamp := msg.header.stamp } }
      current_pose_initialized_ := true }

/-- The method `AstarNavi::goalPoseCallback`. -/
def goalPoseCallback (s : State) (tf_listener_ : TfListener) (msg : PoseStamped) : State :=
  if !s.costmap_initialized_ then s
  else
    { s with
      goal_pose_global_ := msg
      goal_pose_local_ :=
        { pose := transformPose msg.pose
            (getTransform tf_listener_ s.costmap_.header.frame_id msg.header.frame_id)
          header := { frame_id := s.costmap_.header.frame_id, stamp := msg.header.stamp } }
      goal_pose_initialized_ := true }

/-- One callback dispatched by `ros::spinOnce`. -/
def dispatch (tf_listener_ : TfListener) (s : State) : Msg → State
  | Msg.costmap msg => costmapCallback s msg
  | Msg.current_pose msg => currentPoseCallback s tf_listener_ msg
  | Msg.goal msg => goalPoseCallback s tf_listener_ msg

/-- The call `ros::spinOnce()`: the queued callbacks run to completion, in order. -/
def spinOnce (s : State) (tf_listener_ : TfListener) (msgs : List Msg) : State :=
  msgs.foldl (dispatch tf_listener_) s

/-! ## Publishing -/

/-- The method `AstarNavi::publishWaypoints`. -/
def publishWaypoints (s : State) (tf_listener_ : TfListener) (path : Path) (velocity : Rat) :
    State :=
  let header : Header := { frame_id := "map", stamp := path.header.stamp }
  let waypoints : List Waypoint := path.poses.map fun pose =>
    let p := transformPose pose.pose (getTransform tf_listener_ header.frame_id pose.header.frame_id)
    { pose :=
        { header := header
          pose := { p with position := { p.position with z := s.current_pose_global_.pose.position.z } } }
      twist :=
        { TwistStamped.empty with
          twist := { TwistStamped.empty.twist with
            linear := { TwistStamped.empty.twist.linear with x := velocity / 3.6 } } } }
  let lane : Lane := { header := header, increment := 0, waypoints := waypoints }
  { s with lane_pub_ := s.lane_pub_ ++ [{ lanes := [lane] }] }

/-- The method `AstarNavi::publishStopWaypoints`. -/
def publishStopWaypoints (s : State) (tf_listener_ : TfListener) (now : Nat) : State :=
  let pose : PoseStamped :=
    { header := { stamp := now, frame_id := s.current_pose_global_.header.frame_id }
      pose := s.current_pose_global_.pose }
  let path : Path := { header := Header.empty, poses := [pose] }
  publishWaypoints s tf_listener_ path 0.0

/-! ## The report -/

/-- Rounding to the nearest integer, ties to the even one: the rounding that the
`printf` conversions apply to the digits they drop. -/
def roundHalfEven (q : Rat) : Int :=
  let f := Rat.floor q
  let r := q - f
  if r < 1 / 2 then f
  else if 1 / 2 < r then f + 1
  else if f % 2 = 0 then f
  else f + 1

/-- The six digits after the decimal point: `m < 10 ^ 6` padded with zeros on
the left. -/
def fractionDigits (m : Nat) : List Char :=
  let ds := Nat.toDigits 10 m
  List.replicate (6 - ds.length) '0' ++ ds

/-- The text `fprintf` writes for the conversion `%lf`: an optional minus sign,
the integer part, a point, and six digits after it. -/
def fprintf_lf (x : Rat) : List Char :=
  let m : Nat := (roundHalfEven (|x| * 1000000)).toNat
  (if x < 0 then ['-'] else []) ++ Nat.toDigits 10 (m / 1000000) ++ ['.'] ++
    fractionDigits (m % 1000000)

/-- The text `fprintf` writes for the conversion `%d` applied to a `bool`. -/
def fprintf_d (b : Bool) : List Char := if b then ['1'] else ['0']

/-- The values `0, 1, ..., n - 1` of a loop `for (int j = 0; j < n; j++)`. -/
def upto (n : Int) : List Int := (List.range n.toNat).map Int.ofNat

/-- The body of the outer loop of the completion branch (lines 249-259): the
line of iteration `i`. -/
def writeLine (s : State) (i : Int) : List Char :=
  ((upto (s.N * s.N)).flatMap fun j => fprintf_lf (s.time_array j i) ++ [',']) ++
  ((upto (s.N * s.N)).flatMap fun j => fprintf_d (s.result_array j i) ++ [',']) ++
  ['\n']

/-- The text written to `fp` by the completion branch (lines 247-260). -/
def writeReport (s : State) : List Char :=
  (upto s.ITER).flatMap fun i => writeLine s i

/-! ## The loop of `run` -/

/-- The assignment `a[i][j] = v` on a table. -/
def assign {α : Type} (a : Int → Int → α) (i j : Int) (v : α) : Int → Int → α :=
  fun i' j' => if i' = i ∧ j' = j then v else a i' j'

/-- The local `m_pose` (lines 181-189). -/
def m_pose (s : State) : PoseStamped :=
  { header := s.current_pose_local_.header
    pose :=
      { position :=
          { x := s.goal_pose_local_.pose.position.x +
              s.RANGE * ((s.index_x - (s.N.tdiv 2 + 1) : Int) : Rat)
            y := s.goal_pose_local_.pose.position.y +
              s.RANGE * ((s.index_y - (s.N.tdiv 2 + 1) : Int) : Rat)
            z := s.goal_pose_local_.pose.position.z }
        orientation :=
          { x := s.goal_pose_local_.pose.orientation.x
            y := s.goal_pose_local_.pose.orientation.y
            z := s.goal_pose_local_.pose.orientation.z
            w := s.goal_pose_local_.pose.orientation.w } } }

/-- The local `area_index` (line 207). -/
def area_index (s : State) : Int := s.index_x + s.index_y * s.N

/-- The local `loop_index` (line 208). -/
def loop_index (s : State) : Int := s.cnt.tmod s.ITER

/-- The goal handed to `astar.makePlan` (lines 196-199). -/
def planGoal (s : State) : Pose :=
  if s.area_search_ ≠ 0 then (m_pose s).pose else s.goal_pose_local_.pose

/-- The message handed to `visual_pub_` (lines 214-215). -/
def visualPose (s : State) : PoseStamped :=
  if s.area_search_ ≠ 0 then m_pose s else s.goal_pose_local_

/-- The measured latency `time1` in milliseconds (line 205). -/
def time1 (inp : TickInput) : Rat := (inp.elapsed_us : Rat) / 1000.0

/-- Lines 176-199: the planner is initialised with the costmap, the local goal
is refreshed from the global one, and the plan is requested. -/
def plan (s : State) (inp : TickInput) : State :=
  let s := { s with astar := s.astar ++ [AstarCall.astarInit s.costmap_] }
  let s := goalPoseCallback s inp.tf_listener_ s.goal_pose_global_
  { s with astar := s.astar ++ [AstarCall.makePlan s.current_pose_local_.pose (planGoal s)] }

/-- Lines 207-215: the trial is stored in the two tables and the target is
published for visualisation. -/
def record (s : State) (inp : TickInput) : State :=
  { s with
    time_array := assign s.time_array (area_index s) (loop_index s) (time1 inp)
    result_array := assign s.result_array (area_index s) (loop_index s) inp.result
    visual_pub_ := s.visual_pub_ ++ [visualPose s] }

/-- Lines 217-229: the trajectory or the stop command is published, and the
line of the trial is printed. -/
def publish (s : State) (inp : TickInput) : State :=
  let s :=
    if inp.result then
      let s := publishWaypoints s inp.tf_listener_ inp.path s.waypoints_velocity_
      { s with sum := assign s.sum s.index_y s.index_x (s.sum s.index_y s.index_x + time1 inp) }
    else publishStopWaypoints s inp.tf_listener_ inp.now
  { s with trials := s.trials ++ [(s.cnt, s.index_x, s.index_y)] }

/-- Lines 176-229: one trial. -/
def trial (s : State) (inp : TickInput) : State :=
  publish (record (plan s inp) inp) inp

/-- The condition of the completion branch (line 245). -/
def complete (s : State) : Bool :=
  decide (s.index_x = s.N - 1) && decide (s.index_y = s.N - 1) &&
    decide (loop_index s = s.ITER - 1)

/-- The completion branch (lines 247-266): the report is written and the
process exits. -/
def finish (s : State) : State :=
  { s with fp := s.fp ++ writeReport s, exited := true }

/-- The advance step (lines 269-272). -/
def advance (s : State) : State :=
  let cnt := s.cnt + 1
  let index_x := cnt.tdiv s.ITER
  let index_y := index_x.tdiv s.N
  let index_x := index_x.tmod s.N
  { s with cnt := cnt, index_x := index_x, index_y := index_y }

/-- The body of the loop of `run` after `ros::spinOnce()` (lines 166-275). -/
def loopBody (s : State) (inp : TickInput) : State :=
  if !s.costmap_initialized_ || !s.current_pose_initialized_ || !s.goal_pose_initialized_ then s
  else
    let s := trial s inp
    if complete s then finish s
    else
      let s := advance s
      { s with astar := s.astar ++ [AstarCall.reset] }

/-- One pass of the loop of `run` (lines 162-276); nothing runs after `exit`. -/
def tick (s : State) (inp : TickInput) : State :=
  if s.exited then s else loopBody (spinOnce s inp.tf_listener_ inp.msgs) inp

/-- The loop of `AstarNavi::run`, one pass for each element of `inps`. -/
def run (s : State) (inps : List TickInput) : State :=
  inps.foldl tick s

/-- All three latches are set: the negation of the guard at line 166. -/
def ready (s : State) : Bool :=
  s.costmap_initialized_ && s.current_pose_initialized_ && s.goal_pose_initialized_

/-- Every pass of the loop over `inps` is a ready one: as long as the process
has not exited, the three latches are set once the callbacks of the pass have
run. -/
def allReady : State → List TickInput → Bool
  | _, [] => true
  | s, inp :: inps =>
    (s.exited || ready (spinOnce s inp.tf_listener_ inp.msgs)) && allReady (tick s inp) inps

end AstarNavi

namespace AstarNavi

/-! ## Example inputs -/

/-- A listener whose every lookup fails and whose default-constructed transform
leaves poses unchanged. -/
def tfNone : TfListener := { lookupTransform := fun _ _ => none, stf := { apply := id } }

/-- A listener whose every lookup finds the translation by one unit along x. -/
def tfShift : TfListener :=
  { lookupTransform := fun _ _ =>
      some { apply := fun p => { p with position := { p.position with x := p.position.x + 1 } } }
    stf := { apply := id } }

/-- The pose at `(x, y, 0)` with the identity orientation, in frame `frame`. -/
def poseAt (frame : String) (x y : Rat) : PoseStamped :=
  { header := { stamp := 0, frame_id := frame }
    pose := { position := { x := x, y := y, z := 0 }, orientation := { x := 0, y := 0, z := 0, w := 1 } } }

/-- A pass of the loop with no queued message, failing lookups, and a planner
that reports `result` with an empty path after 1500 microseconds. -/
def quietInput (result : Bool) : TickInput :=
  { msgs := [], tf_listener_ := tfNone, now := 0, result := result,
    path := { header := Header.empty, poses := [] }, elapsed_us := 1500 }

/-- The entry state of the loop for grid size `N` and `ITER` iterations, with
zeroed tables. -/
def freshState (N ITER : Int) : State :=
  initial { N := N, ITER := ITER } (fun _ _ => 0) (fun _ _ => false)

/-- The state `freshState N ITER` once a costmap, the current pose `(0, 0)` and
the goal `(10, 10)` have been received in frame `map`, with `area_search`
as given. -/
def readyState (N ITER area_search : Int) : State :=
  { freshState N ITER with
    area_search_ := area_search
    costmap_initialized_ := true
    current_pose_initialized_ := true
    goal_pose_initialized_ := true
    costmap_ := { OccupancyGrid.empty with header := { stamp := 0, frame_id := "map" } }
    current_pose_global_ := poseAt "map" 0 0
    current_pose_local_ := poseAt "map" 0 0
    goal_pose_global_ := poseAt "map" 10 10
    goal_pose_local_ := poseAt "map" 10 10 }

/-- A pass of the loop whose planner succeeds with a path of two poses, at
`(1, 1)` and `(2, 2)` in frame `map`. -/
def pathInput : TickInput :=
  { quietInput true with
    path := { header := Header.empty, poses := [poseAt "map" 1 1, poseAt "map" 2 2] } }

/-! ## The sweep as a function of the trial counter -/

/-- The invariant of the sweep at the start of a trial: the counter is inside
the sweep and the two cell indices are the ones derived from it. -/
def SweepInv (s : State) : Prop :=
  1 ≤ s.N ∧ 1 ≤ s.ITER ∧ 0 ≤ s.cnt ∧ s.cnt < s.N * s.N * s.ITER ∧
  s.index_x = s.cnt / s.ITER % s.N ∧ s.index_y = s.cnt / (s.ITER * s.N)

/-- The line printed by trial number `c` of a sweep: the counter and the cell. -/
def trialOf (N ITER c : Int) : Int × Int × Int := (c, c / ITER % N, c / (ITER * N))

/-- The inputs of the passes of `run s inps` that perform a trial: the pass is
made (no `exit` yet) and is ready once its callbacks have run. -/
def trialInputs : State → List TickInput → List TickInput
  | _, [] => []
  | s, inp :: inps =>
    if !s.exited && ready (spinOnce s inp.tf_listener_ inp.msgs) then
      inp :: trialInputs (tick s inp) inps
    else trialInputs (tick s inp) inps

/-- The table `a` after the trials numbered `c, c + 1, ...` have stored the
values `vs`, trial `k` at entry `(k / ITER, k % ITER)`. -/
def recordAll {α : Type} (ITER : Int) : (Int → Int → α) → Int → List α → Int → Int → α
  | a, _, [] => a
  | a, c, v :: vs => recordAll ITER (assign a (c / ITER) (c % ITER) v) (c + 1) vs

/-- The number of `makePlan` calls in a record of planner calls. -/
def planCalls (calls : List AstarCall) : Nat :=
  calls.countP fun c =>
    match c with
    | AstarCall.makePlan _ _ => true
    | _ => false

/-- What a run of the loop from `s` to `s'` whose trials had the inputs `T` has
done: the trials are logged and stored in the order of the counter, one
`makePlan` call each; the run has
exited exactly if the counter has passed the last trial of the sweep, and then
the report has been written once. -/
def RunSpec (s s' : State) (T : List TickInput) : Prop :=
  s'.N = s.N ∧ s'.ITER = s.ITER ∧
  s.cnt + T.length ≤ s.N * s.N * s.ITER ∧
  s'.trials = s.trials ++
    (List.range T.length).map (fun k : Nat => trialOf s.N s.ITER (s.cnt + (k : Int))) ∧
  s'.time_array = recordAll s.ITER s.time_array s.cnt (T.map time1) ∧
  s'.result_array = recordAll s.ITER s.result_array s.cnt (T.map fun inp => inp.result) ∧
  planCalls s'.astar = planCalls s.astar + T.length ∧
  (s.cnt + T.length < s.N * s.N * s.ITER →
    s'.exited = false ∧ SweepInv s' ∧ s'.cnt = s.cnt + T.length ∧ s'.fp = s.fp) ∧
  (s.cnt + T.length = s.N * s.N * s.ITER →
    s'.exited = true ∧ s'.cnt = s.N * s.N * s.ITER - 1 ∧ s'.index_x = s.N - 1 ∧
    s'.index_y = s.N - 1 ∧ s'.fp = s.fp ++ writeReport s')

/-! ## Frame predicates -/

/-- The part of the state that no subscriber callback touches. -/
def sameSweep (s s' : State) : Prop :=
  s'.waypoints_velocity_ = s.waypoints_velocity_ ∧ s'.N = s.N ∧ s'.RANGE = s.RANGE ∧
  s'.ITER = s.ITER ∧ s'.area_search_ = s.area_search_ ∧ s'.cnt = s.cnt ∧
  s'.index_x = s.index_x ∧ s'.index_y = s.index_y ∧ s'.sum = s.sum ∧
  s'.time_array = s.time_array ∧ s'.result_array = s.result_array ∧ s'.astar = s.astar ∧
  s'.lane_pub_ = s.lane_pub_ ∧ s'.visual_pub_ = s.visual_pub_ ∧ s'.fp = s.fp ∧
  s'.trials = s.trials ∧ s'.exited = s.exited

/-- The latches set in `s` are still set in `s'`. -/
def latchesKept (s s' : State) : Prop :=
  (s.costmap_initialized_ = true → s'.costmap_initialized_ = true) ∧
  (s.current_pose_initialized_ = true → s'.current_pose_initialized_ = true) ∧
  (s.goal_pose_initialized_ = true → s'.goal_pose_initialized_ = true)

/-- The counter, the indices, the report and the exit flag are the same in `s`
and `s'`. -/
def sameIndices (s s' : State) : Prop :=
  s'.N = s.N ∧ s'.ITER = s.ITER ∧ s'.cnt = s.cnt ∧ s'.index_x = s.index_x ∧
  s'.index_y = s.index_y ∧ s'.fp = s.fp ∧ s'.exited = s.exited

/-! ## Frame lemmas for the callbacks -/

theorem sameSweep_refl (s : State) : sameSweep s s := by
  simp [sameSweep]

theorem sameSweep_trans {a b c : State} (h1 : sameSweep a b) (h2 : sameSweep b c) :
    sameSweep a c := by
  simp only [sameSweep] at *
  obtain ⟨a1, a2, a3, a4, a5, a6, a7, a8, a9, a10, a11, a12, a13, a14, a15, a16, a17⟩ := h1
  obtain ⟨b1, b2, b3, b4, b5, b6, b7, b8, b9, b10, b11, b12, b13, b14, b15, b16, b17⟩ := h2
  refine ⟨?_, ?_, ?_, ?_, ?_, ?_, ?_, ?_, ?_, ?_, ?_, ?_, ?_, ?_, ?_, ?_, ?_⟩ <;>
    simp [*]

theorem latchesKept_refl (s : State) : latchesKept s s := by
  simp [latchesKept]

theorem latchesKept_trans {a b c : State} (h1 : latchesKept a b) (h2 : latchesKept b c) :
    latchesKept a c :=
  ⟨fun h => h2.1 (h1.1 h), fun h => h2.2.1 (h1.2.1 h), fun h => h2.2.2 (h1.2.2 h)⟩

theorem dispatch_sameSweep (tf : TfListener) (s : State) (m : Msg) :
    sameSweep s (dispatch tf s m) := by
  cases m <;>
    simp only [dispatch, costmapCallback, currentPoseCallback, goalPoseCallback, sameSweep] <;>
    (try split) <;> simp

theorem dispatch_latchesKept (tf : TfListener) (s : State) (m : Msg) :
    latchesKept s (dispatch tf s m) := by
  cases m <;>
    simp only [dispatch, costmapCallback, currentPoseCallback, goalPoseCallback, latchesKept] <;>
    (try split) <;> simp_all

theorem spinOnce_sameSweep (tf : TfListener) (msgs : List Msg) (s : State) :
    sameSweep s (spinOnce s tf msgs) := by
  induction msgs generalizing s with
  | nil => exact sameSweep_refl s
  | cons m ms ih =>
    exact sameSweep_trans (dispatch_sameSweep tf s m) (ih (dispatch tf s m))

theorem spinOnce_latchesKept (tf : TfListener) (msgs : List Msg) (s : State) :
    latchesKept s (spinOnce s tf msgs) := by
  induction msgs generalizing s with
  | nil => exact latchesKept_refl s
  | cons m ms ih =>
    exact latchesKept_trans (dispatch_latchesKept tf s m) (ih (dispatch tf s m))


/-! ## Frame lemmas for one pass of the loop -/

theorem trial_latchesKept (s : State) (inp : TickInput) : latchesKept s (trial s inp) := by
  have hg := dispatch_latchesKept inp.tf_listener_
    { s with astar := s.astar ++ [AstarCall.astarInit s.costmap_] } (Msg.goal s.goal_pose_global_)
  simp only [dispatch] at hg
  simp only [trial, publish, record, plan, publishStopWaypoints, latchesKept] at *
  split <;> simpa [publishWaypoints] using hg

theorem loopBody_latchesKept (s : State) (inp : TickInput) : latchesKept s (loopBody s inp) := by
  have ht := trial_latchesKept s inp
  simp only [loopBody]
  split
  · exact latchesKept_refl s
  · simp only [latchesKept] at *
    split <;> simpa [finish, advance] using ht

theorem tick_latchesKept (s : State) (inp : TickInput) : latchesKept s (tick s inp) := by
  simp only [tick]
  split
  · exact latchesKept_refl s
  · exact latchesKept_trans (spinOnce_latchesKept _ _ s) (loopBody_latchesKept _ inp)

/-! ## The readiness latches -/

/-- Claim C9, as stated, fails: with no costmap received yet, the pose callbacks
return early and leave their latch unset. -/
theorem C9_counterexample :
    (currentPoseCallback (freshState 1 1) tfNone (poseAt "map" 0 0)).current_pose_initialized_
        = false ∧
    (goalPoseCallback (freshState 1 1) tfNone (poseAt "map" 10 10)).goal_pose_initialized_
        = false := by
  constructor <;> rfl

/-- Claim C9, amended: `costmapCallback` always sets `costmap_initialized_`;
`currentPoseCallback` and `goalPoseCallback` set their own latch exactly when
`costmap_initialized_` is already set (whatever the third latch is) and
otherwise leave the whole state unchanged; and no callback and no pass of the
loop resets a latch that is set. -/
theorem C9_latches (s : State) (tf : TfListener) :
    (∀ msg, (costmapCallback s msg).costmap_initialized_ = true) ∧
    (∀ msg, s.costmap_initialized_ = true →
      (currentPoseCallback s tf msg).current_pose_initialized_ = true) ∧
    (∀ msg, s.costmap_initialized_ = true →
      (goalPoseCallback s tf msg).goal_pose_initialized_ = true) ∧
    (∀ msg, s.costmap_initialized_ = false →
      currentPoseCallback s tf msg = s ∧ goalPoseCallback s tf msg = s) ∧
    (∀ msg, latchesKept s (costmapCallback s msg)) ∧
    (∀ msg, latchesKept s (currentPoseCallback s tf msg)) ∧
    (∀ msg, latchesKept s (goalPoseCallback s tf msg)) ∧
    (∀ inp, latchesKept s (tick s inp)) := by
  refine ⟨?_, ?_, ?_, ?_, ?_, ?_, ?_, ?_⟩
  · intro msg; rfl
  · intro msg h; simp [currentPoseCallback, h]
  · intro msg h; simp [goalPoseCallback, h]
  · intro msg h; simp [currentPoseCallback, goalPoseCallback, h]
  · intro msg; exact dispatch_latchesKept tf s (Msg.costmap msg)
  · intro msg; exact dispatch_latchesKept tf s (Msg.current_pose msg)
  · intro msg; exact dispatch_latchesKept tf s (Msg.goal msg)
  · intro inp; exact tick_latchesKept s inp

/-- Claim C9, amended, at a state that has received a costmap only: both pose
callbacks set their latch and keep the costmap latch. -/
theorem C9_latches_witness :
    (currentPoseCallback (costmapCallback (freshState 1 1) OccupancyGrid.empty) tfNone
        (poseAt "map" 0 0)).current_pose_initialized_ = true ∧
    (goalPoseCallback (costmapCallback (freshState 1 1) OccupancyGrid.empty) tfNone
        (poseAt "map" 0 0)).costmap_initialized_ = true :=
  ⟨(C9_latches (costmapCallback (freshState 1 1) OccupancyGrid.empty) tfNone).2.1 _ rfl,
   ((C9_latches (costmapCallback (freshState 1 1) OccupancyGrid.empty) tfNone).2.2.2.2.2.2.1
      _).1 rfl⟩


/-! ## The readiness gate -/

/-- Claim C4: when at least one of the three latches is unset, the body of the
loop makes no planner call, publishes nothing, and leaves `cnt`, `index_x`,
`index_y`, the latency and success tables and `sum` unchanged (it leaves the
whole state unchanged); and a pass of the loop whose callbacks leave a latch
unset changes none of these either. -/
theorem C4_readiness_gate (s : State) (inp : TickInput)
    (h : s.costmap_initialized_ = false ∨ s.current_pose_initialized_ = false ∨
      s.goal_pose_initialized_ = false) :
    (loopBody s inp).astar = s.astar ∧
    (loopBody s inp).lane_pub_ = s.lane_pub_ ∧
    (loopBody s inp).visual_pub_ = s.visual_pub_ ∧
    (loopBody s inp).cnt = s.cnt ∧
    (loopBody s inp).index_x = s.index_x ∧
    (loopBody s inp).index_y = s.index_y ∧
    (loopBody s inp).time_array = s.time_array ∧
    (loopBody s inp).result_array = s.result_array ∧
    (loopBody s inp).sum = s.sum ∧
    loopBody s inp = s ∧
    (∀ s0 : State, spinOnce s0 inp.tf_listener_ inp.msgs = s → sameSweep s0 (tick s0 inp)) := by
  have hb : loopBody s inp = s := by
    simp only [loopBody]
    rcases h with h | h | h <;> simp [h]
  refine ⟨by rw [hb], by rw [hb], by rw [hb], by rw [hb], by rw [hb], by rw [hb], by rw [hb],
    by rw [hb], by rw [hb], hb, ?_⟩
  intro s0 hs
  simp only [tick]
  split
  · exact sameSweep_refl s0
  · rw [hs, hb, ← hs]
    exact spinOnce_sameSweep _ _ s0

/-- Claim C4 at the entry state, where no latch is set: a pass that delivers
only a costmap calls no planner and publishes nothing. -/
theorem C4_readiness_gate_witness :
    (loopBody (costmapCallback (freshState 2 3) OccupancyGrid.empty) (quietInput true)).astar = [] ∧
    (loopBody (costmapCallback (freshState 2 3) OccupancyGrid.empty) (quietInput true)).lane_pub_
      = [] ∧
    (loopBody (costmapCallback (freshState 2 3) OccupancyGrid.empty) (quietInput true)).cnt = 0 :=
  have h := C4_readiness_gate (costmapCallback (freshState 2 3) OccupancyGrid.empty)
    (quietInput true) (Or.inr (Or.inl rfl))
  ⟨h.1, h.2.1, h.2.2.2.1⟩

/-! ## Target selection -/

/-- The state after lines 176-179 of a ready pass. -/
theorem plan_eq (s : State) (inp : TickInput) (h : s.costmap_initialized_ = true) :
    plan s inp =
      { s with
        goal_pose_local_ :=
          { pose := transformPose s.goal_pose_global_.pose
              (getTransform inp.tf_listener_ s.costmap_.header.frame_id
                s.goal_pose_global_.header.frame_id)
            header :=
              { frame_id := s.costmap_.header.frame_id, stamp := s.goal_pose_global_.header.stamp } }
        goal_pose_initialized_ := true
        astar := s.astar ++ [AstarCall.astarInit s.costmap_] ++
          [AstarCall.makePlan s.current_pose_local_.pose
            (planGoal (goalPoseCallback s inp.tf_listener_ s.goal_pose_global_))] } := by
  simp [plan, goalPoseCallback, h, planGoal, m_pose]

theorem ready_iff (s : State) :
    ready s = true ↔ s.costmap_initialized_ = true ∧ s.current_pose_initialized_ = true ∧
      s.goal_pose_initialized_ = true := by
  simp [ready, and_assoc]

theorem loopBody_ready (s : State) (inp : TickInput) (h : ready s = true) :
    loopBody s inp =
      if complete (trial s inp) then finish (trial s inp)
      else { advance (trial s inp) with
             astar := (advance (trial s inp)).astar ++ [AstarCall.reset] } := by
  obtain ⟨h1, h2, h3⟩ := (ready_iff s).1 h
  simp [loopBody, h1, h2, h3]

theorem plan_sweep (s : State) (inp : TickInput) :
    sameIndices s (plan s inp) ∧ (plan s inp).trials = s.trials ∧
    (plan s inp).time_array = s.time_array ∧ (plan s inp).result_array = s.result_array := by
  simp only [plan, goalPoseCallback, sameIndices]
  cases s.costmap_initialized_ <;> simp

theorem record_sweep (s : State) (inp : TickInput) :
    sameIndices s (record s inp) ∧ (record s inp).trials = s.trials ∧
    (record s inp).time_array = assign s.time_array (area_index s) (loop_index s) (time1 inp) ∧
    (record s inp).result_array =
      assign s.result_array (area_index s) (loop_index s) inp.result := by
  simp [record, sameIndices]

theorem publish_sweep (s : State) (inp : TickInput) :
    sameIndices s (publish s inp) ∧
    (publish s inp).trials = s.trials ++ [(s.cnt, s.index_x, s.index_y)] ∧
    (publish s inp).time_array = s.time_array ∧ (publish s inp).result_array = s.result_array := by
  simp only [publish, publishWaypoints, publishStopWaypoints, sameIndices]
  cases inp.result <;> simp

/-- What one trial does to the sweep state, the tables and the report. -/
theorem trial_sweep (s : State) (inp : TickInput) :
    (trial s inp).N = s.N ∧ (trial s inp).ITER = s.ITER ∧ (trial s inp).cnt = s.cnt ∧
    (trial s inp).index_x = s.index_x ∧ (trial s inp).index_y = s.index_y ∧
    (trial s inp).fp = s.fp ∧ (trial s inp).exited = s.exited ∧
    (trial s inp).trials = s.trials ++ [(s.cnt, s.index_x, s.index_y)] ∧
    (trial s inp).time_array =
      assign s.time_array (area_index s) (loop_index s) (time1 inp) ∧
    (trial s inp).result_array =
      assign s.result_array (area_index s) (loop_index s) inp.result := by
  obtain ⟨⟨a1, a2, a3, a4, a5, a6, a7⟩, a8, a9, a10⟩ := plan_sweep s inp
  obtain ⟨⟨b1, b2, b3, b4, b5, b6, b7⟩, b8, b9, b10⟩ := record_sweep (plan s inp) inp
  obtain ⟨⟨c1, c2, c3, c4, c5, c6, c7⟩, c8, c9, c10⟩ := publish_sweep (record (plan s inp) inp) inp
  have hai : area_index (plan s inp) = area_index s := by simp only [area_index, a1, a4, a5]
  have hli : loop_index (plan s inp) = loop_index s := by simp only [loop_index, a2, a3]
  simp only [trial]
  refine ⟨?_, ?_, ?_, ?_, ?_, ?_, ?_, ?_, ?_, ?_⟩
  · rw [c1, b1, a1]
  · rw [c2, b2, a2]
  · rw [c3, b3, a3]
  · rw [c4, b4, a4]
  · rw [c5, b5, a5]
  · rw [c6, b6, a6]
  · rw [c7, b7, a7]
  · rw [c8, b8, a8, b3, b4, b5, a3, a4, a5]
  · rw [c9, b9, a9, hai, hli]
  · rw [c10, b10, a10, hai, hli]

/-- What one ready trial does to the planner, the publishers and the goal. -/
theorem trial_effects (s : State) (inp : TickInput) (h : s.costmap_initialized_ = true) :
    (trial s inp).goal_pose_local_ = (plan s inp).goal_pose_local_ ∧
    (trial s inp).current_pose_global_ = s.current_pose_global_ ∧
    (trial s inp).astar = s.astar ++ [AstarCall.astarInit s.costmap_,
      AstarCall.makePlan s.current_pose_local_.pose (planGoal (plan s inp))] ∧
    (trial s inp).visual_pub_ = s.visual_pub_ ++ [visualPose (plan s inp)] ∧
    (trial s inp).lane_pub_ =
      if inp.result then
        (publishWaypoints s inp.tf_listener_ inp.path s.waypoints_velocity_).lane_pub_
      else (publishStopWaypoints s inp.tf_listener_ inp.now).lane_pub_ := by
  simp only [trial, publish, record]
  rw [plan_eq s inp h]
  split <;> simp [publishWaypoints, publishStopWaypoints, planGoal, visualPose, m_pose,
    goalPoseCallback, h]

/-- The completion branch and the advance step leave the goal, the publishers
and the tables alone. -/
theorem loopBody_effects (s : State) (inp : TickInput) (h : ready s = true) :
    (loopBody s inp).goal_pose_local_ = (trial s inp).goal_pose_local_ ∧
    (loopBody s inp).visual_pub_ = (trial s inp).visual_pub_ ∧
    (loopBody s inp).lane_pub_ = (trial s inp).lane_pub_ ∧
    (loopBody s inp).time_array = (trial s inp).time_array ∧
    (loopBody s inp).result_array = (trial s inp).result_array ∧
    (loopBody s inp).astar = (trial s inp).astar ++
      (if complete (trial s inp) then [] else [AstarCall.reset]) := by
  rw [loopBody_ready s inp h]
  split <;> simp [finish, advance]

/-- Claim C5: on a ready pass the local goal pose is refreshed from the global
one, and the goal of the single `makePlan` call, which is also the pose of the
single message published for visualisation, is: with `area_search` enabled, the
local goal pose with x replaced by `goal.x + RANGE * (index_x - (N/2 + 1))` and
y by `goal.y + RANGE * (index_y - (N/2 + 1))`, z and orientation kept; with
`area_search` disabled, the local goal pose itself. -/
theorem C5_target_selection (s : State) (inp : TickInput) (h : ready s = true) :
    ∃ (goal target : Pose) (header : Header) (rest : List AstarCall),
      goal = transformPose s.goal_pose_global_.pose
        (getTransform inp.tf_listener_ s.costmap_.header.frame_id
          s.goal_pose_global_.header.frame_id) ∧
      (loopBody s inp).goal_pose_local_.pose = goal ∧
      (s.area_search_ ≠ 0 → target =
        { position :=
            { x := goal.position.x + s.RANGE * ((s.index_x - (Int.tdiv s.N 2 + 1) : Int) : Rat)
              y := goal.position.y + s.RANGE * ((s.index_y - (Int.tdiv s.N 2 + 1) : Int) : Rat)
              z := goal.position.z }
          orientation := goal.orientation }) ∧
      (s.area_search_ = 0 → target = goal) ∧
      (loopBody s inp).astar = s.astar ++
        [AstarCall.astarInit s.costmap_, AstarCall.makePlan s.current_pose_local_.pose target] ++
        rest ∧
      (rest = [] ∨ rest = [AstarCall.reset]) ∧
      (loopBody s inp).visual_pub_ = s.visual_pub_ ++ [{ header := header, pose := target }] := by
  obtain ⟨h1, -, -⟩ := (ready_iff s).1 h
  obtain ⟨t1, -, t3, t4, -⟩ := trial_effects s inp h1
  obtain ⟨b1, b2, -, -, -, b6⟩ := loopBody_effects s inp h
  refine ⟨_, planGoal (plan s inp), (visualPose (plan s inp)).header,
    if complete (trial s inp) then [] else [AstarCall.reset], rfl, ?_, ?_, ?_, ?_, ?_, ?_⟩
  · rw [b1, t1, plan_eq s inp h1]
  · intro ha
    simp [planGoal, m_pose, plan_eq s inp h1, ha]
  · intro ha
    simp [planGoal, plan_eq s inp h1, ha]
  · rw [b6, t3]
  · split <;> simp
  · rw [b2, t4]
    by_cases ha : s.area_search_ = 0 <;>
      simp [planGoal, visualPose, m_pose, plan_eq s inp h1, ha]

/-- Claim C5 on the scenario of the specification: `area_search` enabled,
`N = 3`, `RANGE = 2`, goal `(10, 10)` and `index_x = index_y = 0` give the
planner the target `(6, 6)`. -/
theorem C5_target_selection_witness :
    ready { readyState 3 1 1 with RANGE := 2 } = true ∧
    AstarCall.makePlan (poseAt "map" 0 0).pose
        { position := { x := 6, y := 6, z := 0 }
          orientation := { x := 0, y := 0, z := 0, w := 1 } } ∈
      (loopBody { readyState 3 1 1 with RANGE := 2 } (quietInput true)).astar := by
  refine ⟨rfl, ?_⟩
  obtain ⟨goal, target, header, rest, hg, -, hen, -, hastar, -, -⟩ :=
    C5_target_selection { readyState 3 1 1 with RANGE := 2 } (quietInput true) rfl
  have ht := hen (by decide)
  rw [hastar, ht, hg]
  simp [readyState, freshState, initial, poseAt, quietInput, tfNone, transformPose, getTransform]
  norm_num [Int.tdiv]


/-! ## Publishing -/

/-- The waypoint that `publishWaypoints` builds from one pose of the path. -/
theorem publishWaypoints_lane (s : State) (tf : TfListener) (path : Path) (v : Rat) :
    (publishWaypoints s tf path v).lane_pub_ = s.lane_pub_ ++
      [{ lanes := [{ header := { stamp := path.header.stamp, frame_id := "map" }
                     increment := 0
                     waypoints := path.poses.map fun pose =>
                       { pose :=
                           { header := { stamp := path.header.stamp, frame_id := "map" }
                             pose :=
                               { position :=
                                   { x := (transformPose pose.pose
                                       (getTransform tf "map" pose.header.frame_id)).position.x
                                     y := (transformPose pose.pose
                                       (getTransform tf "map" pose.header.frame_id)).position.y
                                     z := s.current_pose_global_.pose.position.z }
                                 orientation := (transformPose pose.pose
                                   (getTransform tf "map" pose.header.frame_id)).orientation } }
                         twist :=
                           { header := Header.empty
                             twist := { linear := { x := v / 3.6, y := 0, z := 0 }
                                        angular := { x := 0, y := 0, z := 0 } } } } }] }] := by
  simp [publishWaypoints, TwistStamped.empty]

/-- Claim C6, as stated, fails: when the lookup from the frame of the current
pose to `map` finds the translation by one unit along x, the stop waypoint is
at x = 1 while the current global pose is at x = 0. -/
theorem C6_counterexample :
    (publishStopWaypoints (readyState 1 1 0) tfShift 0).lane_pub_.map
        (fun la => la.lanes.map fun l => l.waypoints.map fun w => w.pose.pose.position.x)
      = [[[1]]] ∧
    (readyState 1 1 0).current_pose_global_.pose.position.x = 0 := by
  refine ⟨?_, rfl⟩
  rw [publishStopWaypoints, publishWaypoints_lane]
  simp [readyState, freshState, initial, poseAt, tfShift, transformPose, getTransform]

/-- Claim C6, amended: `publishStopWaypoints` publishes one lane array holding
one lane with exactly one waypoint, whose linear velocity is 0, whose z is the z
of the current global pose, and whose x, y and orientation are those of the
current global pose converted by the transform that `getTransform` returns from
the frame of that pose to `map`; so the waypoint's pose is the current global
pose whenever that transform leaves the pose unchanged. -/
theorem C6_stop_fallback (s : State) (tf : TfListener) (now : Nat) :
    ∃ wp : Waypoint,
      (publishStopWaypoints s tf now).lane_pub_ = s.lane_pub_ ++
        [{ lanes := [{ header := { stamp := 0, frame_id := "map" }
                       increment := 0
                       waypoints := [wp] }] }] ∧
      wp.twist.twist.linear.x = 0 ∧
      wp.pose.pose.position.z = s.current_pose_global_.pose.position.z ∧
      wp.pose.pose.position.x = (transformPose s.current_pose_global_.pose
        (getTransform tf "map" s.current_pose_global_.header.frame_id)).position.x ∧
      wp.pose.pose.position.y = (transformPose s.current_pose_global_.pose
        (getTransform tf "map" s.current_pose_global_.header.frame_id)).position.y ∧
      wp.pose.pose.orientation = (transformPose s.current_pose_global_.pose
        (getTransform tf "map" s.current_pose_global_.header.frame_id)).orientation ∧
      (transformPose s.current_pose_global_.pose
          (getTransform tf "map" s.current_pose_global_.header.frame_id)
        = s.current_pose_global_.pose →
        wp.pose.pose = s.current_pose_global_.pose) := by
  refine ⟨{ pose :=
              { header := { stamp := 0, frame_id := "map" }
                pose :=
                  { position :=
                      { x := (transformPose s.current_pose_global_.pose (getTransform tf "map"
                          s.current_pose_global_.header.frame_id)).position.x
                        y := (transformPose s.current_pose_global_.pose (getTransform tf "map"
                          s.current_pose_global_.header.frame_id)).position.y
                        z := s.current_pose_global_.pose.position.z }
                    orientation := (transformPose s.current_pose_global_.pose
                      (getTransform tf "map" s.current_pose_global_.header.frame_id)).orientation } }
            twist :=
              { header := Header.empty
                twist := { linear := { x := 0.0 / 3.6, y := 0, z := 0 }
                           angular := { x := 0, y := 0, z := 0 } } } },
    ?_, ?_, rfl, rfl, rfl, rfl, ?_⟩
  · rw [publishStopWaypoints, publishWaypoints_lane]
    simp only [List.map_cons, List.map_nil, Header.empty]
  · norm_num
  · intro h
    simp only [h]

/-- Claim C6, amended, at a state whose lookups fail and fall back to a
transform that leaves poses unchanged: the stop waypoint is the current global
pose with velocity 0. -/
theorem C6_stop_fallback_witness :
    ∃ wp : Waypoint,
      (publishStopWaypoints (readyState 1 1 0) tfNone 0).lane_pub_ =
        [{ lanes := [{ header := { stamp := 0, frame_id := "map" }
                       increment := 0
                       waypoints := [wp] }] }] ∧
      wp.twist.twist.linear.x = 0 ∧
      wp.pose.pose = (readyState 1 1 0).current_pose_global_.pose := by
  obtain ⟨wp, h1, h2, -, -, -, -, h7⟩ := C6_stop_fallback (readyState 1 1 0) tfNone 0
  exact ⟨wp, h1, h2, h7 rfl⟩

/-- Claim C7: `publishWaypoints path v` publishes one lane array holding one
lane; its waypoints are those built from the poses of the path, in the same
order and number; each has the z of the current global pose and linear speed
`v / 3.6`; and on the success branch of a ready pass the call is made with the
planner's path and `waypoints_velocity_`, and what it publishes is what the pass
publishes on the lane output. -/
theorem C7_success_trajectory (s : State) (tf : TfListener) (path : Path) (v : Rat) :
    ∃ lane : Lane,
      (publishWaypoints s tf path v).lane_pub_ = s.lane_pub_ ++ [{ lanes := [lane] }] ∧
      lane.waypoints.length = path.poses.length ∧
      lane.waypoints.map (fun wp => (wp.pose.pose.position.x, wp.pose.pose.position.y,
          wp.pose.pose.orientation)) =
        path.poses.map (fun pose =>
          ((transformPose pose.pose (getTransform tf "map" pose.header.frame_id)).position.x,
           (transformPose pose.pose (getTransform tf "map" pose.header.frame_id)).position.y,
           (transformPose pose.pose (getTransform tf "map" pose.header.frame_id)).orientation)) ∧
      (∀ wp ∈ lane.waypoints,
        wp.pose.pose.position.z = s.current_pose_global_.pose.position.z ∧
        wp.twist.twist.linear.x = v / 3.6) ∧
      (∀ inp : TickInput, ready s = true → inp.result = true →
        (loopBody s inp).lane_pub_ =
          (publishWaypoints s inp.tf_listener_ inp.path s.waypoints_velocity_).lane_pub_) := by
  refine ⟨_, publishWaypoints_lane s tf path v, ?_, ?_, ?_, ?_⟩
  · simp
  · simp [Function.comp_def]
  · intro wp hwp
    simp only [List.mem_map] at hwp
    obtain ⟨pose, -, rfl⟩ := hwp
    exact ⟨rfl, rfl⟩
  · intro inp hr hres
    obtain ⟨h1, -, -⟩ := (ready_iff s).1 hr
    rw [(loopBody_effects s inp hr).2.2.1, (trial_effects s inp h1).2.2.2.2, hres]
    rfl


/-- Claim C7 on a ready pass whose planner returns two poses: two waypoints in
the order of the path, at the height of the current pose, with speed
`5 / 3.6`. -/
theorem C7_success_trajectory_witness :
    ∃ lane : Lane,
      (loopBody (readyState 1 1 0) pathInput).lane_pub_ = [{ lanes := [lane] }] ∧
      lane.waypoints.length = 2 ∧
      ∀ wp ∈ lane.waypoints,
        wp.pose.pose.position.z = 0 ∧ wp.twist.twist.linear.x = 25 / 18 := by
  obtain ⟨lane, hlane, hlen, -, hz, hpub⟩ :=
    C7_success_trajectory (readyState 1 1 0) pathInput.tf_listener_ pathInput.path
      (readyState 1 1 0).waypoints_velocity_
  have hr : ready (readyState 1 1 0) = true := rfl
  have hres : pathInput.result = true := rfl
  refine ⟨lane, ?_, ?_, ?_⟩
  · rw [hpub pathInput hr hres, hlane]
    simp [readyState, freshState, initial]
  · rw [hlen]
    rfl
  · intro wp hwp
    obtain ⟨h1, h2⟩ := hz wp hwp
    rw [h1, h2]
    simp only [readyState, freshState, initial, poseAt]
    norm_num

/-! ## Trial recording -/

theorem assign_same {α : Type} (a : Int → Int → α) (i j : Int) (v : α) :
    assign a i j v i j = v := by
  simp [assign]

theorem assign_other {α : Type} (a : Int → Int → α) (i j i' j' : Int) (v : α)
    (h : ¬(i' = i ∧ j' = j)) : assign a i j v i' j' = a i' j' := by
  simp only [assign, if_neg h]

/-- Claim C8: after a ready pass with latency `time1` and planner outcome
`result`, both tables hold the trial at entry
`(index_x + index_y * N, cnt % ITER)` and are unchanged elsewhere; `%` is the
remainder of C++, which is the mathematical one on a non-negative `cnt`; and a
failed plan is stored as `false` and publishes the stop waypoint instead of a
trajectory. -/
theorem C8_trial_recording (s : State) (inp : TickInput) (h : ready s = true) :
    (loopBody s inp).time_array (s.index_x + s.index_y * s.N) (Int.tmod s.cnt s.ITER)
      = time1 inp ∧
    (loopBody s inp).result_array (s.index_x + s.index_y * s.N) (Int.tmod s.cnt s.ITER)
      = inp.result ∧
    (∀ j i : Int, ¬(j = s.index_x + s.index_y * s.N ∧ i = Int.tmod s.cnt s.ITER) →
      (loopBody s inp).time_array j i = s.time_array j i ∧
      (loopBody s inp).result_array j i = s.result_array j i) ∧
    (0 ≤ s.cnt → 0 < s.ITER → Int.tmod s.cnt s.ITER = s.cnt % s.ITER) ∧
    (inp.result = false →
      (loopBody s inp).result_array (s.index_x + s.index_y * s.N) (Int.tmod s.cnt s.ITER)
        = false ∧
      (loopBody s inp).lane_pub_ = (publishStopWaypoints s inp.tf_listener_ inp.now).lane_pub_) := by
  obtain ⟨h1, -, -⟩ := (ready_iff s).1 h
  obtain ⟨-, -, b3, b4, b5, -⟩ := loopBody_effects s inp h
  obtain ⟨-, -, -, -, -, -, -, -, t9, t10⟩ := trial_sweep s inp
  rw [b4, b5, t9, t10, b3]
  simp only [area_index, loop_index]
  refine ⟨assign_same _ _ _ _, assign_same _ _ _ _, ?_, ?_, ?_⟩
  · intro j i hne
    exact ⟨assign_other _ _ _ _ _ _ hne, assign_other _ _ _ _ _ _ hne⟩
  · intro hc hi
    exact Int.tmod_eq_emod hc (le_of_lt hi)
  · intro hres
    refine ⟨by rw [assign_same, hres], ?_⟩
    rw [(trial_effects s inp h1).2.2.2.2, hres]
    simp

/-- Claim C8 on a failed plan in the first cell: the table stores 1.5 ms and
`false`, and the single published lane holds the stop waypoint. -/
theorem C8_trial_recording_witness :
    (loopBody (readyState 2 3 0) (quietInput false)).time_array 0 0 = 3 / 2 ∧
    (loopBody (readyState 2 3 0) (quietInput false)).result_array 0 0 = false ∧
    (loopBody (readyState 2 3 0) (quietInput false)).lane_pub_ =
      (publishStopWaypoints (readyState 2 3 0) tfNone 0).lane_pub_ := by
  obtain ⟨h1, -, -, -, h5⟩ := C8_trial_recording (readyState 2 3 0) (quietInput false) rfl
  refine ⟨?_, (h5 rfl).1, (h5 rfl).2⟩
  have : time1 (quietInput false) = 3 / 2 := by
    simp [time1, quietInput]; norm_num
  rw [← this]
  exact h1


/-! ## Arithmetic of the sweep -/

theorem ediv_ediv_pos (a b c : Int) (hb : 0 < b) (hc : 0 < c) : a / b / c = a / (b * c) := by
  have hbc : 0 < b * c := Int.mul_pos hb hc
  have h1 := Int.emod_add_ediv a b
  have h2 := Int.emod_add_ediv (a / b) c
  have h3 := Int.emod_nonneg a (ne_of_gt hb)
  have h4 := Int.emod_lt_of_pos a hb
  have h5 := Int.emod_nonneg (a / b) (ne_of_gt hc)
  have h6 := Int.emod_lt_of_pos (a / b) hc
  symm
  refine ((Int.ediv_emod_unique hbc).2
    (?_ : (a % b + b * (a / b % c)) + b * c * (a / b / c) = a ∧ _)).1
  refine ⟨?_, ?_, ?_⟩
  · have : b * (a / b % c) + b * c * (a / b / c) = b * (a / b) := by
      rw [← h2]; ring_nf
      rw [h2]; ring
    linarith
  · positivity
  · have : b * (a / b % c) ≤ b * (c - 1) := by
      apply mul_le_mul_of_nonneg_left _ (le_of_lt hb)
      omega
    nlinarith

/-- The quotient and remainder of `q * b + r` by `b`. -/
theorem ediv_emod_of_eq (q r b : Int) (hb : 0 < b) (h0 : 0 ≤ r) (h1 : r < b) :
    (q * b + r) / b = q ∧ (q * b + r) % b = r := by
  apply (Int.ediv_emod_unique hb).2
  exact ⟨by ring, h0, h1⟩

/-- The ranges of the quantities derived from a counter inside the sweep. -/
theorem sweep_bounds (N ITER c : Int) (hN : 1 ≤ N) (hI : 1 ≤ ITER) (h0 : 0 ≤ c)
    (hK : c < N * N * ITER) :
    (0 ≤ c / ITER ∧ c / ITER < N * N) ∧ (0 ≤ c / ITER % N ∧ c / ITER % N < N) ∧
    (0 ≤ c / (ITER * N) ∧ c / (ITER * N) < N) ∧ (0 ≤ c % ITER ∧ c % ITER < ITER) ∧
    c / ITER % N + c / (ITER * N) * N = c / ITER ∧ c = c / ITER * ITER + c % ITER := by
  have hI0 : 0 < ITER := by omega
  have hN0 : 0 < N := by omega
  have hq0 : 0 ≤ c / ITER := Int.ediv_nonneg h0 (le_of_lt hI0)
  have hq1 : c / ITER < N * N := Int.ediv_lt_of_lt_mul hI0 hK
  have hdd : c / (ITER * N) = c / ITER / N := (ediv_ediv_pos c ITER N hI0 hN0).symm
  refine ⟨⟨hq0, hq1⟩, ⟨Int.emod_nonneg _ (ne_of_gt hN0), Int.emod_lt_of_pos _ hN0⟩, ?_,
    ⟨Int.emod_nonneg _ (ne_of_gt hI0), Int.emod_lt_of_pos _ hI0⟩, ?_, ?_⟩
  · rw [hdd]
    exact ⟨Int.ediv_nonneg hq0 (le_of_lt hN0), Int.ediv_lt_of_lt_mul hN0 hq1⟩
  · rw [hdd]
    exact Int.emod_add_ediv' _ _
  · have := Int.emod_add_ediv' c ITER
    omega

/-- Inside the sweep, the completion condition holds at the last counter only. -/
theorem complete_iff_last (N ITER c : Int) (hN : 1 ≤ N) (hI : 1 ≤ ITER) (h0 : 0 ≤ c)
    (hK : c < N * N * ITER) :
    (c / ITER % N = N - 1 ∧ c / (ITER * N) = N - 1 ∧ c % ITER = ITER - 1) ↔
      c = N * N * ITER - 1 := by
  obtain ⟨-, -, -, -, h5, h6⟩ := sweep_bounds N ITER c hN hI h0 hK
  have hI0 : 0 < ITER := by omega
  have hN0 : 0 < N := by omega
  constructor
  · rintro ⟨hx, hy, hl⟩
    rw [hx, hy] at h5
    rw [hl, ← h5] at h6
    rw [h6]; ring
  · intro hc
    have e1 : c = (N * N - 1) * ITER + (ITER - 1) := by rw [hc]; ring
    obtain ⟨q1, r1⟩ := ediv_emod_of_eq (N * N - 1) (ITER - 1) ITER hI0 (by omega) (by omega)
    rw [← e1] at q1 r1
    have e2 : N * N - 1 = (N - 1) * N + (N - 1) := by ring
    obtain ⟨q2, r2⟩ := ediv_emod_of_eq (N - 1) (N - 1) N hN0 (by omega) (by omega)
    rw [← e2] at q2 r2
    refine ⟨by rw [q1, r2], ?_, r1⟩
    rw [← ediv_ediv_pos c ITER N hI0 hN0, q1, q2]

/-- The advance step on the counter and the indices: C++ division and remainder
agree with the mathematical ones on the non-negative values of the sweep. -/
theorem advance_eq (s : State) (hN : 1 ≤ s.N) (hI : 1 ≤ s.ITER) (h0 : 0 ≤ s.cnt) :
    advance s =
      { s with
        cnt := s.cnt + 1
        index_x := (s.cnt + 1) / s.ITER % s.N
        index_y := (s.cnt + 1) / (s.ITER * s.N) } := by
  have h1 : (s.cnt + 1).tdiv s.ITER = (s.cnt + 1) / s.ITER :=
    Int.tdiv_eq_ediv (by omega) (by omega)
  have hq : 0 ≤ (s.cnt + 1) / s.ITER := Int.ediv_nonneg (by omega) (by omega)
  simp only [advance, h1, Int.tdiv_eq_ediv hq (show (0 : Int) ≤ s.N by omega),
    Int.tmod_eq_emod hq (show (0 : Int) ≤ s.N by omega),
    ediv_ediv_pos (s.cnt + 1) s.ITER s.N (by omega) (by omega)]

/-- The value of `loop_index` inside the sweep. -/
theorem loop_index_eq (s : State) (hI : 1 ≤ s.ITER) (h0 : 0 ≤ s.cnt) :
    loop_index s = s.cnt % s.ITER :=
  Int.tmod_eq_emod h0 (by omega)

/-- Under the invariant, `area_index` is the quotient of the counter by `ITER`. -/
theorem area_index_eq (s : State) (h : SweepInv s) : area_index s = s.cnt / s.ITER := by
  obtain ⟨hN, hI, h0, hK, hx, hy⟩ := h
  rw [area_index, hx, hy]
  exact (sweep_bounds s.N s.ITER s.cnt hN hI h0 hK).2.2.2.2.1

/-- Under the invariant, the completion condition holds at the last counter
of the sweep only. -/
theorem complete_iff (s : State) (h : SweepInv s) :
    complete s = true ↔ s.cnt = s.N * s.N * s.ITER - 1 := by
  obtain ⟨hN, hI, h0, hK, hx, hy⟩ := h
  rw [← complete_iff_last s.N s.ITER s.cnt hN hI h0 hK, ← hx, ← hy,
    ← loop_index_eq s hI h0]
  simp [complete, and_assoc]


/-- On a sweep whose size `N * N * ITER` fits in an `int`, every `int` value
that a pass of the loop computes fits in an `int`, so the C++ arithmetic is the
arithmetic of the integers. -/
theorem int_values_fit (s : State) (h : SweepInv s) (hfit : s.N * s.N * s.ITER ≤ 2147483647) :
    (0 ≤ Int.tdiv s.N 2 + 1 ∧ Int.tdiv s.N 2 + 1 ≤ 2147483647) ∧
    (-2147483648 ≤ s.index_x - (Int.tdiv s.N 2 + 1) ∧
      s.index_x - (Int.tdiv s.N 2 + 1) ≤ 2147483647) ∧
    (-2147483648 ≤ s.index_y - (Int.tdiv s.N 2 + 1) ∧
      s.index_y - (Int.tdiv s.N 2 + 1) ≤ 2147483647) ∧
    (0 ≤ s.index_y * s.N ∧ s.index_y * s.N ≤ 2147483647) ∧
    (0 ≤ area_index s ∧ area_index s ≤ 2147483647) ∧
    (0 ≤ loop_index s ∧ loop_index s ≤ 2147483647) ∧
    (0 ≤ s.N * s.N ∧ s.N * s.N ≤ 2147483647) ∧
    (0 ≤ s.cnt + 1 ∧ s.cnt + 1 ≤ 2147483647) ∧
    (0 ≤ Int.tdiv (s.cnt + 1) s.ITER ∧ Int.tdiv (s.cnt + 1) s.ITER ≤ 2147483647) := by
  have hai := area_index_eq s h
  have hli := loop_index_eq s h.2.1 h.2.2.1
  obtain ⟨hN, hI, h0, hK, hx, hy⟩ := h
  obtain ⟨b1, b2, b3, b4, b5, -⟩ := sweep_bounds s.N s.ITER s.cnt hN hI h0 hK
  have hNN : s.N * s.N ≤ s.N * s.N * s.ITER := le_mul_of_one_le_right (by positivity) hI
  have hN1 : s.N ≤ s.N * s.N := le_mul_of_one_le_right (by omega) hN
  have hIK : s.ITER ≤ s.N * s.N * s.ITER :=
    le_mul_of_one_le_left (by omega) (by nlinarith)
  have ht : Int.tdiv s.N 2 = s.N / 2 := Int.tdiv_eq_ediv (by omega) (by decide)
  have hq : Int.tdiv (s.cnt + 1) s.ITER = (s.cnt + 1) / s.ITER :=
    Int.tdiv_eq_ediv (by omega) (by omega)
  have hq0 : 0 ≤ (s.cnt + 1) / s.ITER := Int.ediv_nonneg (by omega) (by omega)
  have hq1 : (s.cnt + 1) / s.ITER ≤ s.cnt + 1 := Int.ediv_le_self _ (by omega)
  have hyN : s.index_y * s.N ≤ s.cnt / s.ITER := by rw [hy]; omega
  have hyN0 : 0 ≤ s.index_y * s.N := by rw [hy]; exact mul_nonneg b3.1 (by omega)
  rw [hai, hli, ht, hq, hx, hy]
  refine ⟨⟨by omega, by omega⟩, ⟨by omega, by omega⟩, ⟨by omega, by omega⟩, ⟨?_, ?_⟩,
    ⟨by omega, by omega⟩, ⟨by omega, by omega⟩, ⟨by omega, by omega⟩, ⟨by omega, by omega⟩,
    ⟨hq0, by omega⟩⟩
  · rw [← hy]; exact hyN0
  · rw [← hy]; omega

/-! ## The sweep index -/

/-- Claim C1: from `cnt = 0`, `index_x = 0`, `index_y = 0`, with `N >= 1` and
`ITER >= 1`, after any number `k` of advance steps the counter is `k` and
`index_x = (cnt / ITER) mod N`, `index_y = cnt / (ITER * N)`,
`loop_index = cnt mod ITER`; and while `cnt < N * N * ITER` the two cell indices
lie in `[0, N)` and `loop_index` in `[0, ITER)`. -/
theorem C1_sweep_index (s0 : State) (k : Nat) (hN : 1 ≤ s0.N) (hI : 1 ≤ s0.ITER)
    (hc : s0.cnt = 0) (hx : s0.index_x = 0) (hy : s0.index_y = 0) :
    (advance^[k] s0).N = s0.N ∧ (advance^[k] s0).ITER = s0.ITER ∧
    (advance^[k] s0).cnt = k ∧
    (advance^[k] s0).index_x = (advance^[k] s0).cnt / s0.ITER % s0.N ∧
    (advance^[k] s0).index_y = (advance^[k] s0).cnt / (s0.ITER * s0.N) ∧
    loop_index (advance^[k] s0) = (advance^[k] s0).cnt % s0.ITER ∧
    ((advance^[k] s0).cnt < s0.N * s0.N * s0.ITER →
      (0 ≤ (advance^[k] s0).index_x ∧ (advance^[k] s0).index_x < s0.N) ∧
      (0 ≤ (advance^[k] s0).index_y ∧ (advance^[k] s0).index_y < s0.N) ∧
      (0 ≤ loop_index (advance^[k] s0) ∧ loop_index (advance^[k] s0) < s0.ITER)) := by
  have key : (advance^[k] s0).N = s0.N ∧ (advance^[k] s0).ITER = s0.ITER ∧
      (advance^[k] s0).cnt = k ∧
      (advance^[k] s0).index_x = (advance^[k] s0).cnt / s0.ITER % s0.N ∧
      (advance^[k] s0).index_y = (advance^[k] s0).cnt / (s0.ITER * s0.N) := by
    induction k with
    | zero => simp [hc, hx, hy]
    | succ n ih =>
      obtain ⟨i1, i2, i3, -, -⟩ := ih
      rw [Function.iterate_succ_apply',
        advance_eq _ (by rw [i1]; exact hN) (by rw [i2]; exact hI) (by rw [i3]; omega)]
      simp only [i1, i2, i3]
      exact ⟨trivial, trivial, by push_cast; ring, trivial, trivial⟩
  obtain ⟨k1, k2, k3, k4, k5⟩ := key
  have hl : loop_index (advance^[k] s0) = (advance^[k] s0).cnt % s0.ITER := by
    rw [loop_index_eq _ (by rw [k2]; exact hI) (by rw [k3]; omega), k2]
  refine ⟨k1, k2, k3, k4, k5, hl, ?_⟩
  intro hlt
  obtain ⟨-, b2, b3, b4, -, -⟩ :=
    sweep_bounds s0.N s0.ITER (advance^[k] s0).cnt hN hI (by rw [k3]; omega) hlt
  rw [k4, k5, hl]
  exact ⟨b2, b3, b4⟩

/-- Claim C1 on the sweep `N = 2`, `ITER = 3` after 7 advance steps: the counter
is 7, the cell is `(0, 1)` and the iteration is 1. -/
theorem C1_sweep_index_witness :
    (advance^[7] (freshState 2 3)).cnt = 7 ∧ (advance^[7] (freshState 2 3)).index_x = 0 ∧
    (advance^[7] (freshState 2 3)).index_y = 1 ∧ loop_index (advance^[7] (freshState 2 3)) = 1 := by
  obtain ⟨-, -, h3, h4, h5, h6, -⟩ :=
    C1_sweep_index (freshState 2 3) 7 (by decide) (by decide) rfl rfl rfl
  rw [h3] at h4 h5 h6
  exact ⟨h3, h4, h5, h6⟩


/-! ## One pass of the loop on the sweep -/

theorem SweepInv_of_eq {s s' : State} (h : SweepInv s) (hN : s'.N = s.N) (hI : s'.ITER = s.ITER)
    (hc : s'.cnt = s.cnt) (hx : s'.index_x = s.index_x) (hy : s'.index_y = s.index_y) :
    SweepInv s' := by
  simp only [SweepInv, hN, hI, hc, hx, hy]
  exact h

/-- The report depends on `N`, `ITER` and the two tables only. -/
theorem writeReport_congr {s s' : State} (hN : s'.N = s.N) (hI : s'.ITER = s.ITER)
    (ht : s'.time_array = s.time_array) (hr : s'.result_array = s.result_array) :
    writeReport s' = writeReport s := by
  simp only [writeReport, writeLine, hN, hI, ht, hr]

/-- A pass that is skipped, after `exit` or because a latch is unset, leaves
the sweep, the tables, the publishers and the report alone. -/
theorem tick_idle (s : State) (inp : TickInput)
    (h : s.exited = true ∨ ready (spinOnce s inp.tf_listener_ inp.msgs) = false) :
    sameSweep s (tick s inp) := by
  simp only [tick]
  split
  · exact sameSweep_refl s
  · next hex =>
    rcases h with h | h
    · exact absurd h hex
    · have hb : loopBody (spinOnce s inp.tf_listener_ inp.msgs) inp =
          spinOnce s inp.tf_listener_ inp.msgs := by
        simp only [ready, Bool.and_eq_false_iff] at h
        simp only [loopBody]
        rcases h with (h | h) | h <;> simp [h]
      rw [hb]
      exact spinOnce_sameSweep _ _ s

/-- A pass that performs a trial: the trial is logged and stored, and then
either the sweep completes (at the last counter) or the counter advances. -/
theorem tick_trial (s : State) (inp : TickInput) (hex : s.exited = false) (hinv : SweepInv s)
    (hr : ready (spinOnce s inp.tf_listener_ inp.msgs) = true) :
    (tick s inp).N = s.N ∧ (tick s inp).ITER = s.ITER ∧
    (tick s inp).trials = s.trials ++ [trialOf s.N s.ITER s.cnt] ∧
    (tick s inp).time_array =
      assign s.time_array (s.cnt / s.ITER) (s.cnt % s.ITER) (time1 inp) ∧
    (tick s inp).result_array =
      assign s.result_array (s.cnt / s.ITER) (s.cnt % s.ITER) inp.result ∧
    (s.cnt = s.N * s.N * s.ITER - 1 →
      (tick s inp).exited = true ∧ (tick s inp).cnt = s.cnt ∧
      (tick s inp).index_x = s.N - 1 ∧ (tick s inp).index_y = s.N - 1 ∧
      (tick s inp).fp = s.fp ++ writeReport (tick s inp)) ∧
    (s.cnt ≠ s.N * s.N * s.ITER - 1 →
      (tick s inp).exited = false ∧ SweepInv (tick s inp) ∧ (tick s inp).cnt = s.cnt + 1 ∧
      (tick s inp).fp = s.fp) := by
  have hsp := spinOnce_sameSweep inp.tf_listener_ inp.msgs s
  simp only [sameSweep] at hsp
  obtain ⟨-, p2, -, p4, -, p6, p7, p8, -, p10, p11, -, -, -, p15, p16, p17⟩ := hsp
  obtain ⟨t1, t2, t3, t4, t5, t6, t7, t8, t9, t10⟩ :=
    trial_sweep (spinOnce s inp.tf_listener_ inp.msgs) inp
  have hinvp : SweepInv (spinOnce s inp.tf_listener_ inp.msgs) :=
    SweepInv_of_eq hinv p2 p4 p6 p7 p8
  have hinvt : SweepInv (trial (spinOnce s inp.tf_listener_ inp.msgs) inp) :=
    SweepInv_of_eq hinvp t1 t2 t3 t4 t5
  have hai := area_index_eq _ hinvp
  have hli := loop_index_eq _ hinvp.2.1 hinvp.2.2.1
  have hcomp := complete_iff _ hinvt
  rw [t1, t2, t3, p2, p4, p6] at hcomp
  rw [hai, hli, p4, p6, p10] at t9
  rw [hai, hli, p4, p6, p11] at t10
  rw [p16, p6, p7, p8, hinv.2.2.2.2.1, hinv.2.2.2.2.2] at t8
  have htick : tick s inp = loopBody (spinOnce s inp.tf_listener_ inp.msgs) inp := by
    simp [tick, hex]
  rw [htick, loopBody_ready _ inp hr]
  by_cases hlast : s.cnt = s.N * s.N * s.ITER - 1
  · rw [if_pos (hcomp.2 hlast)]
    have hw : writeReport (finish (trial (spinOnce s inp.tf_listener_ inp.msgs) inp)) =
        writeReport (trial (spinOnce s inp.tf_listener_ inp.msgs) inp) :=
      writeReport_congr rfl rfl rfl rfl
    obtain ⟨hx, hy, -⟩ := (complete_iff_last s.N s.ITER s.cnt hinv.1 hinv.2.1 hinv.2.2.1
      hinv.2.2.2.1).2 hlast
    refine ⟨t1.trans p2, t2.trans p4, t8, t9, t10, ?_, fun h => absurd hlast h⟩
    intro _
    refine ⟨rfl, t3.trans p6, ?_, ?_, ?_⟩
    · exact (t4.trans p7).trans (hinv.2.2.2.2.1.trans hx)
    · exact (t5.trans p8).trans (hinv.2.2.2.2.2.trans hy)
    · rw [hw]
      simp only [finish, t6, p15]
  · have hnc : complete (trial (spinOnce s inp.tf_listener_ inp.msgs) inp) = false := by
      cases hc : complete (trial (spinOnce s inp.tf_listener_ inp.msgs) inp)
      · rfl
      · exact absurd (hcomp.1 hc) hlast
    rw [hnc]
    simp only [Bool.false_eq_true, if_false]
    rw [advance_eq _ hinvt.1 hinvt.2.1 hinvt.2.2.1]
    refine ⟨t1.trans p2, t2.trans p4, t8, t9, t10, fun h => absurd h hlast, ?_⟩
    intro _
    refine ⟨t7.trans (p17.trans hex), ?_, ?_, t6.trans p15⟩
    · simp only [SweepInv, t1, t2, t3, p2, p4, p6]
      obtain ⟨hN, hI, h0, hK, -, -⟩ := hinv
      exact ⟨hN, hI, by omega, by omega, trivial, trivial⟩
    · simp only [t3, p6]


/-- A pass that performs a trial calls `makePlan` once. -/
theorem tick_trial_calls (s : State) (inp : TickInput) (hex : s.exited = false)
    (hr : ready (spinOnce s inp.tf_listener_ inp.msgs) = true) :
    planCalls (tick s inp).astar = planCalls s.astar + 1 := by
  have htick : tick s inp = loopBody (spinOnce s inp.tf_listener_ inp.msgs) inp := by
    simp [tick, hex]
  have hsp := spinOnce_sameSweep inp.tf_listener_ inp.msgs s
  simp only [sameSweep] at hsp
  rw [htick, (loopBody_effects _ inp hr).2.2.2.2.2,
    (trial_effects _ inp ((ready_iff _).1 hr).1).2.2.1, hsp.2.2.2.2.2.2.2.2.2.2.2.1]
  cases complete (trial (spinOnce s inp.tf_listener_ inp.msgs) inp) <;>
    simp [planCalls, List.countP_append, List.countP_cons]

/-! ## The whole run -/

theorem run_cons (s : State) (inp : TickInput) (inps : List TickInput) :
    run s (inp :: inps) = run (tick s inp) inps := rfl

/-- After `exit` nothing runs. -/
theorem run_exited (inps : List TickInput) (s : State) (h : s.exited = true) :
    run s inps = s ∧ trialInputs s inps = [] := by
  induction inps with
  | nil => exact ⟨rfl, rfl⟩
  | cons inp rest ih =>
    have ht : tick s inp = s := by simp [tick, h]
    rw [run_cons, trialInputs, ht, h]
    simpa using ih

theorem range_succ_map_add (c : Int) (n : Nat) (f : Int → Int × Int × Int) :
    (List.range (n + 1)).map (fun k : Nat => f (c + k)) =
      f c :: (List.range n).map (fun k : Nat => f (c + 1 + k)) := by
  rw [List.range_succ_eq_map, List.map_cons, List.map_map]
  simp only [Nat.cast_zero, add_zero, List.cons.injEq, true_and]
  apply List.map_congr_left
  intro k _
  simp only [Function.comp, Nat.succ_eq_add_one, Nat.cast_add, Nat.cast_one]
  congr 1
  ring

/-- The run of the loop from a state inside the sweep. -/
theorem run_spec (inps : List TickInput) :
    ∀ s : State, SweepInv s → s.exited = false → RunSpec s (run s inps) (trialInputs s inps) := by
  induction inps with
  | nil =>
    intro s hinv hex
    simp only [RunSpec, run, trialInputs, List.foldl_nil, List.length_nil, List.range_zero,
      List.map_nil, List.append_nil, recordAll, Nat.cast_zero, add_zero]
    refine ⟨trivial, trivial, le_of_lt hinv.2.2.2.1, trivial, trivial, trivial, trivial,
      fun _ => ⟨hex, hinv, trivial, trivial⟩, fun h => ?_⟩
    exact absurd h (ne_of_lt hinv.2.2.2.1)
  | cons inp rest ih =>
    intro s hinv hex
    rw [run_cons]
    by_cases hr : ready (spinOnce s inp.tf_listener_ inp.msgs) = true
    · have hT : trialInputs s (inp :: rest) = inp :: trialInputs (tick s inp) rest := by
        simp [trialInputs, hex, hr]
      rw [hT]
      obtain ⟨k1, k2, k3, k4, k5, klast, knext⟩ := tick_trial s inp hex hinv hr
      have kc := tick_trial_calls s inp hex hr
      by_cases hlast : s.cnt = s.N * s.N * s.ITER - 1
      · obtain ⟨l1, l2, l3, l4, l5⟩ := klast hlast
        obtain ⟨e1, e2⟩ := run_exited rest (tick s inp) l1
        rw [e1, e2]
        simp only [RunSpec, List.length_singleton, List.range_succ, List.range_zero, List.nil_append,
          List.map_cons, List.map_nil, recordAll, Nat.cast_one, Nat.cast_zero, add_zero]
        refine ⟨k1, k2, by omega, k3, k4, k5, kc, fun h => ?_, fun _ => ⟨l1, ?_, l3, l4, l5⟩⟩
        · omega
        · rw [l2, hlast]
      · obtain ⟨n1, n2, n3, n4⟩ := knext hlast
        obtain ⟨i1, i2, i3, i4, i5, i6, ic, i7, i8⟩ := ih (tick s inp) n2 n1
        simp only [k1, k2, n3, n4, k3, k4, k5, kc] at i1 i2 i3 i4 i5 i6 ic i7 i8
        simp only [RunSpec, List.length_cons, List.map_cons, recordAll, Nat.cast_add, Nat.cast_one]
        refine ⟨i1, i2, by omega, ?_, i5, i6, by omega, fun h => ?_, fun h => ?_⟩
        · rw [i4, range_succ_map_add, List.append_assoc]
          rfl
        · obtain ⟨a1, a2, a3, a4⟩ := i7 (by omega)
          exact ⟨a1, a2, by rw [a3]; ring, a4⟩
        · exact i8 (by omega)
    · have hr' : ready (spinOnce s inp.tf_listener_ inp.msgs) = false := by
        simpa using hr
      have hT : trialInputs s (inp :: rest) = trialInputs (tick s inp) rest := by
        simp [trialInputs, hr']
      rw [hT]
      have hidle := tick_idle s inp (Or.inr hr')
      simp only [sameSweep] at hidle
      obtain ⟨-, p2, -, p4, -, p6, p7, p8, -, p10, p11, p12, -, -, p15, p16, p17⟩ := hidle
      have := ih (tick s inp) (SweepInv_of_eq hinv p2 p4 p6 p7 p8) (p17.trans hex)
      simpa only [RunSpec, p2, p4, p6, p10, p11, p12, p15, p16] using this


theorem tick_ready (s : State) (inp : TickInput) (h : ready s = true) :
    ready (tick s inp) = true := by
  obtain ⟨k1, k2, k3⟩ := tick_latchesKept s inp
  obtain ⟨h1, h2, h3⟩ := (ready_iff s).1 h
  exact (ready_iff _).2 ⟨k1 h1, k2 h2, k3 h3⟩

theorem spinOnce_ready (s : State) (inp : TickInput) (h : ready s = true) :
    ready (spinOnce s inp.tf_listener_ inp.msgs) = true := by
  obtain ⟨k1, k2, k3⟩ := spinOnce_latchesKept inp.tf_listener_ inp.msgs s
  obtain ⟨h1, h2, h3⟩ := (ready_iff s).1 h
  exact (ready_iff _).2 ⟨k1 h1, k2 h2, k3 h3⟩

/-- Once the three latches are set, every later pass is a ready one. -/
theorem allReady_of_ready (inps : List TickInput) :
    ∀ s : State, ready s = true → allReady s inps = true := by
  induction inps with
  | nil => intro s _; rfl
  | cons inp rest ih =>
    intro s h
    simp only [allReady, Bool.and_eq_true, Bool.or_eq_true]
    exact ⟨Or.inr (spinOnce_ready s inp h), ih _ (tick_ready s inp h)⟩

/-- When every pass is a ready one, every pass performs a trial until the sweep
is complete. -/
theorem trialInputs_length (inps : List TickInput) :
    ∀ s : State, SweepInv s → s.exited = false → allReady s inps = true →
      ((trialInputs s inps).length : Int) =
        min (inps.length : Int) (s.N * s.N * s.ITER - s.cnt) := by
  induction inps with
  | nil =>
    intro s hinv _ _
    have := hinv.2.2.2.1
    simp only [trialInputs, List.length_nil, Nat.cast_zero]
    omega
  | cons inp rest ih =>
    intro s hinv hex hall
    simp only [allReady, Bool.and_eq_true, Bool.or_eq_true, hex, Bool.false_eq_true,
      false_or] at hall
    obtain ⟨hr, hrest⟩ := hall
    have hT : trialInputs s (inp :: rest) = inp :: trialInputs (tick s inp) rest := by
      simp [trialInputs, hex, hr]
    obtain ⟨k1, k2, -, -, -, klast, knext⟩ := tick_trial s inp hex hinv hr
    rw [hT]
    simp only [List.length_cons, Nat.cast_add, Nat.cast_one]
    by_cases hlast : s.cnt = s.N * s.N * s.ITER - 1
    · rw [(run_exited rest _ (klast hlast).1).2]
      simp only [List.length_nil, Nat.cast_zero]
      omega
    · obtain ⟨n1, n2, n3, -⟩ := knext hlast
      have := ih _ n2 n1 hrest
      rw [k1, k2, n3] at this
      have := hinv.2.2.2.1
      omega

/-! ## The tables after a run -/

/-- A stored trial is not overwritten by the trials of other counters. -/
theorem recordAll_other {α : Type} (ITER : Int) (vs : List α) :
    ∀ (a : Int → Int → α) (c j i : Int),
      (∀ k : Nat, k < vs.length → ¬(j = (c + k) / ITER ∧ i = (c + k) % ITER)) →
      recordAll ITER a c vs j i = a j i := by
  induction vs with
  | nil => intro a c j i _; rfl
  | cons v rest ih =>
    intro a c j i h
    rw [recordAll, ih]
    · apply assign_other
      simpa using h 0 (by simp)
    · intro k hk
      have := h (k + 1) (by simpa using hk)
      simpa [add_assoc, add_comm (1 : Int)] using this

/-- The entry of trial `c + k` holds the `k`-th stored value. -/
theorem recordAll_get {α : Type} (ITER : Int) (vs : List α) :
    ∀ (a : Int → Int → α) (c : Int) (k : Nat) (v : α), vs[k]? = some v →
      recordAll ITER a c vs ((c + k) / ITER) ((c + k) % ITER) = v := by
  induction vs with
  | nil => intro a c k v h; simp at h
  | cons w rest ih =>
    intro a c k v h
    cases k with
    | zero =>
      simp only [List.getElem?_cons_zero, Option.some.injEq] at h
      rw [recordAll, recordAll_other]
      · simp only [Nat.cast_zero, add_zero, h]
        exact assign_same _ _ _ _
      · intro k _ hk
        simp only [Nat.cast_zero, add_zero] at hk
        have e1 := Int.emod_add_ediv' c ITER
        have e2 := Int.emod_add_ediv' (c + 1 + k) ITER
        rw [← hk.1, ← hk.2] at e2
        omega
    | succ n =>
      simp only [List.getElem?_cons_succ] at h
      have := ih (assign a (c / ITER) (c % ITER) w) (c + 1) n v h
      rw [recordAll]
      simpa [add_assoc, add_comm (1 : Int)] using this

/-- The entry `(j, i)` of a table after the trials `0, 1, ...` holds the value
stored by trial `j * ITER + i`. -/
theorem recordAll_entry {α : Type} (ITER : Int) (hI : 0 < ITER) (vs : List α)
    (a : Int → Int → α) (j i : Int) (hj : 0 ≤ j) (hi0 : 0 ≤ i) (hi1 : i < ITER) (v : α)
    (h : vs[(j * ITER + i).toNat]? = some v) : recordAll ITER a 0 vs j i = v := by
  have hpos : 0 ≤ j * ITER + i := by positivity
  have := recordAll_get ITER vs a 0 (j * ITER + i).toNat v h
  rw [zero_add, Int.toNat_of_nonneg hpos] at this
  obtain ⟨q, r⟩ := ediv_emod_of_eq j i ITER hI hi0 hi1
  rwa [q, r] at this


/-! ## Counting the trials of a cell -/

theorem countP_range_between (lo hi n : Nat) :
    List.countP (fun c => decide (lo ≤ c ∧ c < hi)) (List.range n) = min n hi - min n lo := by
  induction n with
  | zero => simp
  | succ n ih =>
    rw [List.range_succ, List.countP_append, ih]
    simp only [List.countP_cons, List.countP_nil]
    split <;> rename_i h' <;> simp at h' <;> omega

/-- The counters whose trial is in cell `(ix, iy)` are the `ITER` consecutive
ones starting at `(ix + iy * N) * ITER`. -/
theorem cell_iff (N ITER c ix iy : Int) (hN : 1 ≤ N) (hI : 1 ≤ ITER) (hx0 : 0 ≤ ix)
    (hx1 : ix < N) :
    (c / ITER % N = ix ∧ c / (ITER * N) = iy) ↔
      ((ix + iy * N) * ITER ≤ c ∧ c < (ix + iy * N) * ITER + ITER) := by
  have hI0 : 0 < ITER := by omega
  have hN0 : 0 < N := by omega
  have hdd : c / (ITER * N) = c / ITER / N := (ediv_ediv_pos c ITER N hI0 hN0).symm
  have hq : (c / ITER % N = ix ∧ c / (ITER * N) = iy) ↔ c / ITER = ix + iy * N := by
    constructor
    · rintro ⟨h1, h2⟩
      have := Int.emod_add_ediv' (c / ITER) N
      rw [← hdd, h1, h2] at this
      exact this.symm
    · intro h
      have e : ix + iy * N = iy * N + ix := by ring
      obtain ⟨q, r⟩ := ediv_emod_of_eq iy ix N hN0 hx0 hx1
      rw [hdd, h, e]
      exact ⟨r, q⟩
  rw [hq]
  constructor
  · intro h
    have e1 := Int.emod_add_ediv' c ITER
    have e2 := Int.emod_nonneg c (ne_of_gt hI0)
    have e3 := Int.emod_lt_of_pos c hI0
    rw [h] at e1
    constructor <;> omega
  · rintro ⟨h1, h2⟩
    have e : c = (ix + iy * N) * ITER + (c - (ix + iy * N) * ITER) := by ring
    rw [e]
    exact (ediv_emod_of_eq _ _ ITER hI0 (by omega) (by omega)).1

/-- The trial log of a complete sweep. -/
theorem mem_sweep_log (N ITER : Int) (t : Int × Int × Int) :
    t ∈ (List.range (N * N * ITER).toNat).map (fun k : Nat => trialOf N ITER (k : Int)) ↔
      (0 ≤ t.1 ∧ t.1 < N * N * ITER) ∧ t.2.1 = t.1 / ITER % N ∧ t.2.2 = t.1 / (ITER * N) := by
  obtain ⟨c, x, y⟩ := t
  simp only [List.mem_map, List.mem_range, trialOf, Prod.mk.injEq]
  constructor
  · rintro ⟨k, hk, rfl, rfl, rfl⟩
    exact ⟨⟨by omega, by omega⟩, rfl, rfl⟩
  · rintro ⟨⟨h0, h1⟩, rfl, rfl⟩
    exact ⟨c.toNat, by omega, by rw [Int.toNat_of_nonneg h0]; exact ⟨rfl, rfl, rfl⟩⟩

/-- In the log of a complete sweep every cell occurs `ITER` times. -/
theorem cell_count (N ITER ix iy : Int) (hN : 1 ≤ N) (hI : 1 ≤ ITER) (hx0 : 0 ≤ ix)
    (hx1 : ix < N) (hy0 : 0 ≤ iy) (hy1 : iy < N) :
    ((((List.range (N * N * ITER).toNat).map
        (fun k : Nat => trialOf N ITER (k : Int))).map Prod.snd).count (ix, iy) : Int) = ITER := by
  have ha0 : 0 ≤ (ix + iy * N) * ITER := by positivity
  have ha1 : (ix + iy * N) * ITER + ITER ≤ N * N * ITER := by
    have h1 : ix + iy * N + 1 ≤ N * N := by nlinarith
    have h2 : (ix + iy * N + 1) * ITER ≤ N * N * ITER :=
      mul_le_mul_of_nonneg_right h1 (by omega)
    linarith
  rw [List.count_eq_countP, List.countP_map, List.countP_map,
    List.countP_congr (q := fun c : Nat => decide (((ix + iy * N) * ITER).toNat ≤ c ∧
      c < ((ix + iy * N) * ITER + ITER).toNat)), countP_range_between]
  · omega
  · intro k _
    simp only [Function.comp, trialOf, beq_iff_eq, Prod.mk.injEq, decide_eq_true_eq]
    rw [cell_iff N ITER k ix iy hN hI hx0 hx1]
    omega

/-- In the log of a complete sweep every cell occurs once for each iteration. -/
theorem cell_iter_unique (N ITER ix iy i : Int) (hN : 1 ≤ N) (hI : 1 ≤ ITER) (hx0 : 0 ≤ ix)
    (hx1 : ix < N) (hy0 : 0 ≤ iy) (hy1 : iy < N) (hi0 : 0 ≤ i) (hi1 : i < ITER) :
    ∃! c : Int,
      (c, ix, iy) ∈ (List.range (N * N * ITER).toNat).map
        (fun k : Nat => trialOf N ITER (k : Int)) ∧ c % ITER = i := by
  have hI0 : 0 < ITER := by omega
  have ha0 : 0 ≤ (ix + iy * N) * ITER := by positivity
  have ha1 : (ix + iy * N) * ITER + ITER ≤ N * N * ITER := by
    have h1 : ix + iy * N + 1 ≤ N * N := by nlinarith
    have h2 : (ix + iy * N + 1) * ITER ≤ N * N * ITER :=
      mul_le_mul_of_nonneg_right h1 (by omega)
    linarith
  refine ⟨(ix + iy * N) * ITER + i, ⟨?_, ?_⟩, ?_⟩
  · rw [mem_sweep_log]
    have := (cell_iff N ITER ((ix + iy * N) * ITER + i) ix iy hN hI hx0 hx1).2
      ⟨by omega, by omega⟩
    exact ⟨⟨by omega, by omega⟩, this.1.symm, this.2.symm⟩
  · exact (ediv_emod_of_eq _ i ITER hI0 hi0 hi1).2
  · rintro c ⟨hmem, hmod⟩
    rw [mem_sweep_log] at hmem
    obtain ⟨-, h1, h2⟩ := hmem
    obtain ⟨b1, b2⟩ := (cell_iff N ITER c ix iy hN hI hx0 hx1).1 ⟨h1.symm, h2.symm⟩
    have e1 := Int.emod_add_ediv' c ITER
    have e3 : c / ITER = ix + iy * N := by
      have e : c = (ix + iy * N) * ITER + (c - (ix + iy * N) * ITER) := by ring
      rw [e]
      exact (ediv_emod_of_eq _ _ ITER hI0 (by omega) (by omega)).1
    rw [e3, hmod] at e1
    omega


/-! ## Coverage and completion of the sweep -/

/-- The state in which the loop starts satisfies the invariant. -/
theorem start_inv (s0 : State) (hN : 1 ≤ s0.N) (hI : 1 ≤ s0.ITER) (hc : s0.cnt = 0)
    (hx : s0.index_x = 0) (hy : s0.index_y = 0) : SweepInv s0 := by
  have hK : 0 < s0.N * s0.N * s0.ITER := by positivity
  simp only [SweepInv, hc, hx, hy, Int.zero_ediv, Int.zero_emod]
  exact ⟨hN, hI, le_refl _, hK, trivial, trivial⟩

/-- The run from the start of the sweep, with the trials numbered from 0. -/
theorem run_from_start (s0 : State) (inps : List TickInput) (hN : 1 ≤ s0.N) (hI : 1 ≤ s0.ITER)
    (hc : s0.cnt = 0) (hx : s0.index_x = 0) (hy : s0.index_y = 0) (hex : s0.exited = false) :
    (run s0 inps).N = s0.N ∧ (run s0 inps).ITER = s0.ITER ∧
    ((trialInputs s0 inps).length : Int) ≤ s0.N * s0.N * s0.ITER ∧
    (run s0 inps).trials = s0.trials ++ (List.range (trialInputs s0 inps).length).map
      (fun k : Nat => trialOf s0.N s0.ITER (k : Int)) ∧
    (run s0 inps).time_array =
      recordAll s0.ITER s0.time_array 0 ((trialInputs s0 inps).map time1) ∧
    (run s0 inps).result_array =
      recordAll s0.ITER s0.result_array 0 ((trialInputs s0 inps).map fun inp => inp.result) ∧
    planCalls (run s0 inps).astar = planCalls s0.astar + (trialInputs s0 inps).length ∧
    (((trialInputs s0 inps).length : Int) < s0.N * s0.N * s0.ITER →
      (run s0 inps).exited = false ∧ SweepInv (run s0 inps) ∧
      (run s0 inps).cnt = (trialInputs s0 inps).length ∧ (run s0 inps).fp = s0.fp) ∧
    (((trialInputs s0 inps).length : Int) = s0.N * s0.N * s0.ITER →
      (run s0 inps).exited = true ∧ (run s0 inps).cnt = s0.N * s0.N * s0.ITER - 1 ∧
      (run s0 inps).index_x = s0.N - 1 ∧ (run s0 inps).index_y = s0.N - 1 ∧
      (run s0 inps).fp = s0.fp ++ writeReport (run s0 inps)) := by
  have h := run_spec inps s0 (start_inv s0 hN hI hc hx hy) hex
  simpa only [RunSpec, hc, zero_add] using h

/-- At the last counter of the sweep the iteration is the last one. -/
theorem last_loop_index (s : State) (hN : 1 ≤ s.N) (hI : 1 ≤ s.ITER)
    (hc : s.cnt = s.N * s.N * s.ITER - 1) : loop_index s = s.ITER - 1 := by
  have hK : 0 < s.N * s.N * s.ITER := by positivity
  rw [loop_index_eq s hI (by omega)]
  exact ((complete_iff_last s.N s.ITER s.cnt hN hI (by omega) (by omega)).2 hc).2.2

/-- Claim C2: when every pass is a ready one, a run of `n` passes from the
start of the sweep has performed `min n (N * N * ITER)` trials, trial `c` in
cell `((c / ITER) mod N, c / (ITER * N))`, with one `makePlan` call each; before `N * N * ITER` passes the
process has not exited, the report is untouched, and the completion condition
holds exactly when the counter is `N * N * ITER - 1`; from `N * N * ITER` passes
on the process has exited at that counter, in cell `(N - 1, N - 1)` and
iteration `ITER - 1`, the report has been written once, and every cell of the
grid has been the cell of a trial exactly `ITER` times, once for each
iteration. -/
theorem C2_sweep_coverage (s0 : State) (inps : List TickInput) (hN : 1 ≤ s0.N)
    (hI : 1 ≤ s0.ITER) (hc : s0.cnt = 0) (hx : s0.index_x = 0) (hy : s0.index_y = 0)
    (hex : s0.exited = false) (ht : s0.trials = []) (hready : allReady s0 inps = true) :
    (((run s0 inps).trials.length : Int) = min (inps.length : Int) (s0.N * s0.N * s0.ITER)) ∧
    (run s0 inps).trials = (List.range (run s0 inps).trials.length).map
      (fun c : Nat => ((c : Int), (c : Int) / s0.ITER % s0.N, (c : Int) / (s0.ITER * s0.N))) ∧
    planCalls (run s0 inps).astar = planCalls s0.astar + (run s0 inps).trials.length ∧
    ((inps.length : Int) < s0.N * s0.N * s0.ITER →
      (run s0 inps).exited = false ∧ (run s0 inps).cnt = inps.length ∧
      (run s0 inps).fp = s0.fp ∧
      (complete (run s0 inps) = true ↔ (inps.length : Int) = s0.N * s0.N * s0.ITER - 1)) ∧
    (s0.N * s0.N * s0.ITER ≤ (inps.length : Int) →
      (run s0 inps).exited = true ∧ (run s0 inps).cnt = s0.N * s0.N * s0.ITER - 1 ∧
      (run s0 inps).index_x = s0.N - 1 ∧ (run s0 inps).index_y = s0.N - 1 ∧
      loop_index (run s0 inps) = s0.ITER - 1 ∧
      (run s0 inps).fp = s0.fp ++ writeReport (run s0 inps) ∧
      ∀ ix iy : Int, 0 ≤ ix → ix < s0.N → 0 ≤ iy → iy < s0.N →
        ((((run s0 inps).trials.map Prod.snd).count (ix, iy) : Int) = s0.ITER) ∧
        ∀ i : Int, 0 ≤ i → i < s0.ITER →
          ∃! c : Int, (c, ix, iy) ∈ (run s0 inps).trials ∧ c % s0.ITER = i) := by
  have hinv := start_inv s0 hN hI hc hx hy
  have hlen := trialInputs_length inps s0 hinv hex hready
  rw [hc, sub_zero] at hlen
  obtain ⟨r1, r2, r3, r4, -, -, rc, r7, r8⟩ := run_from_start s0 inps hN hI hc hx hy hex
  rw [ht, List.nil_append] at r4
  have htl : (run s0 inps).trials.length = (trialInputs s0 inps).length := by
    rw [r4, List.length_map, List.length_range]
  refine ⟨by rw [htl, hlen], by rw [htl, r4]; rfl, by rw [htl, rc], ?_, ?_⟩
  · intro hn
    obtain ⟨a1, a2, a3, a4⟩ := r7 (by omega)
    have hcnt : (run s0 inps).cnt = inps.length := by rw [a3]; omega
    refine ⟨a1, hcnt, a4, ?_⟩
    rw [complete_iff _ a2, hcnt, r1, r2]
  · intro hn
    obtain ⟨a1, a2, a3, a4, a5⟩ := r8 (by omega)
    have hT : (trialInputs s0 inps).length = (s0.N * s0.N * s0.ITER).toNat := by omega
    refine ⟨a1, a2, a3, a4, ?_, a5, ?_⟩
    · have := last_loop_index (run s0 inps) (by rw [r1]; exact hN) (by rw [r2]; exact hI)
        (by rw [r1, r2]; exact a2)
      rw [this, r2]
    · intro ix iy hx0 hx1 hy0 hy1
      rw [r4, hT]
      refine ⟨cell_count s0.N s0.ITER ix iy hN hI hx0 hx1 hy0 hy1, ?_⟩
      intro i hi0 hi1
      exact cell_iter_unique s0.N s0.ITER ix iy i hN hI hx0 hx1 hy0 hy1 hi0 hi1


/-- Claim C2 on the two scenarios of the specification: with `N = 2` and
`ITER = 3`, twelve ready passes perform twelve trials, the last one at counter
11 in cell `(1, 1)` and iteration 2, and the process has exited; with `N = 1`
and `ITER = 1` the first pass performs the only trial and exits, whatever
follows. -/
theorem C2_sweep_coverage_witness :
    ((run (readyState 2 3 0) (List.replicate 12 (quietInput true))).trials.length = 12 ∧
      (run (readyState 2 3 0) (List.replicate 12 (quietInput true))).exited = true ∧
      (run (readyState 2 3 0) (List.replicate 12 (quietInput true))).cnt = 11 ∧
      (run (readyState 2 3 0) (List.replicate 12 (quietInput true))).index_x = 1 ∧
      (run (readyState 2 3 0) (List.replicate 12 (quietInput true))).index_y = 1 ∧
      loop_index (run (readyState 2 3 0) (List.replicate 12 (quietInput true))) = 2) ∧
    ((run (readyState 1 1 0) [quietInput true, quietInput false]).trials = [(0, 0, 0)] ∧
      (run (readyState 1 1 0) [quietInput true, quietInput false]).exited = true) := by
  constructor
  · obtain ⟨h1, -, -, -, h4⟩ := C2_sweep_coverage (readyState 2 3 0)
      (List.replicate 12 (quietInput true)) (by decide) (by decide) rfl rfl rfl rfl rfl
      (allReady_of_ready _ _ rfl)
    have hN : (readyState 2 3 0).N = 2 := rfl
    have hI : (readyState 2 3 0).ITER = 3 := rfl
    rw [hN, hI] at h1 h4
    simp only [List.length_replicate] at h1 h4
    obtain ⟨a1, a2, a3, a4, a5, -⟩ := h4 (by norm_num)
    refine ⟨?_, a1, ?_, ?_, ?_, ?_⟩
    · omega
    · rw [a2]; norm_num
    · rw [a3]; norm_num
    · rw [a4]; norm_num
    · rw [a5]; norm_num
  · obtain ⟨h1, h2, -, -, h4⟩ := C2_sweep_coverage (readyState 1 1 0)
      [quietInput true, quietInput false] (by decide) (by decide) rfl rfl rfl rfl rfl
      (allReady_of_ready _ _ rfl)
    have hN : (readyState 1 1 0).N = 1 := rfl
    have hI : (readyState 1 1 0).ITER = 1 := rfl
    rw [hN, hI] at h1 h2 h4
    simp only [List.length_cons, List.length_nil] at h1 h4
    have hl : (run (readyState 1 1 0) [quietInput true, quietInput false]).trials.length = 1 := by
      omega
    rw [hl] at h2
    refine ⟨?_, (h4 (by norm_num)).1⟩
    rw [h2]
    decide


/-! ## Table indexing -/

/-- Every state of a run from the start of the sweep satisfies the invariant,
the state after `exit` included. -/
theorem run_inv (s0 : State) (inps : List TickInput) (hN : 1 ≤ s0.N) (hI : 1 ≤ s0.ITER)
    (hc : s0.cnt = 0) (hx : s0.index_x = 0) (hy : s0.index_y = 0) (hex : s0.exited = false) :
    SweepInv (run s0 inps) ∧
    ((run s0 inps).exited = true →
      ((trialInputs s0 inps).length : Int) = s0.N * s0.N * s0.ITER) := by
  obtain ⟨r1, r2, r3, -, -, -, -, r7, r8⟩ := run_from_start s0 inps hN hI hc hx hy hex
  by_cases hlt : ((trialInputs s0 inps).length : Int) < s0.N * s0.N * s0.ITER
  · obtain ⟨a1, a2, -, -⟩ := r7 hlt
    exact ⟨a2, fun h => by rw [a1] at h; exact absurd h (by decide)⟩
  · have heq : ((trialInputs s0 inps).length : Int) = s0.N * s0.N * s0.ITER := by omega
    obtain ⟨-, a2, a3, a4, -⟩ := r8 heq
    have hK : 0 < s0.N * s0.N * s0.ITER := by positivity
    obtain ⟨e1, e2, -⟩ := (complete_iff_last s0.N s0.ITER (s0.N * s0.N * s0.ITER - 1) hN hI
      (by omega) (by omega)).2 rfl
    refine ⟨?_, fun _ => heq⟩
    simp only [SweepInv, r1, r2, a2, a3, a4, e1, e2]
    exact ⟨hN, hI, by omega, by omega, trivial, trivial⟩

/-- An entry index inside the tables is the counter of a trial of the sweep. -/
theorem entry_counter (N ITER j i : Int) (hI : 1 ≤ ITER) (hj0 : 0 ≤ j) (hj1 : j < N * N)
    (hi0 : 0 ≤ i) (hi1 : i < ITER) : 0 ≤ j * ITER + i ∧ j * ITER + i < N * N * ITER := by
  have h2 : (j + 1) * ITER ≤ N * N * ITER := mul_le_mul_of_nonneg_right (by omega) (by omega)
  have h3 : 0 ≤ j * ITER := by positivity
  constructor <;> linarith

/-- When the process has exited, every entry `(j, i)` of the two tables holds
what trial number `j * ITER + i` stored there. -/
theorem tables_at_exit (s0 : State) (inps : List TickInput) (hN : 1 ≤ s0.N) (hI : 1 ≤ s0.ITER)
    (hc : s0.cnt = 0) (hx : s0.index_x = 0) (hy : s0.index_y = 0) (hex : s0.exited = false)
    (hexit : (run s0 inps).exited = true) (j i : Int) (hj0 : 0 ≤ j) (hj1 : j < s0.N * s0.N)
    (hi0 : 0 ≤ i) (hi1 : i < s0.ITER) :
    ∃ inp : TickInput, (trialInputs s0 inps)[(j * s0.ITER + i).toNat]? = some inp ∧
      (run s0 inps).time_array j i = time1 inp ∧
      (run s0 inps).result_array j i = inp.result := by
  obtain ⟨-, -, -, -, r5, r6, -, -, -⟩ := run_from_start s0 inps hN hI hc hx hy hex
  have hlen := (run_inv s0 inps hN hI hc hx hy hex).2 hexit
  have hI0 : 0 < s0.ITER := by omega
  obtain ⟨hb0, hb1⟩ := entry_counter s0.N s0.ITER j i hI hj0 hj1 hi0 hi1
  have hidx : (j * s0.ITER + i).toNat < (trialInputs s0 inps).length := by omega
  refine ⟨(trialInputs s0 inps)[(j * s0.ITER + i).toNat], List.getElem?_eq_getElem hidx, ?_, ?_⟩
  · rw [r5]
    apply recordAll_entry s0.ITER hI0 _ _ j i hj0 hi0 hi1
    rw [List.getElem?_map, List.getElem?_eq_getElem hidx]
    rfl
  · rw [r6]
    apply recordAll_entry s0.ITER hI0 _ _ j i hj0 hi0 hi1
    rw [List.getElem?_map, List.getElem?_eq_getElem hidx]
    rfl

/-- Claim C10: in every state of a run of the loop from `cnt = 0`, with
`N >= 1` and `ITER >= 1`, the write indices are in bounds,
`0 <= area_index < N * N`, `0 <= loop_index < ITER`, `0 <= index_x, index_y < N`;
the counter lies in `[0, N * N * ITER)` and determines the entry by
`area_index = cnt / ITER`, `loop_index = cnt mod ITER`,
`cnt = area_index * ITER + loop_index`, which is a bijection onto
`[0, N * N) x [0, ITER)`; and when the process has exited, every entry `(j, i)`
of the two tables holds what trial number `j * ITER + i` stored there. -/
theorem C10_table_indexing (s0 : State) (inps : List TickInput) (hN : 1 ≤ s0.N)
    (hI : 1 ≤ s0.ITER) (hc : s0.cnt = 0) (hx : s0.index_x = 0) (hy : s0.index_y = 0)
    (hex : s0.exited = false) :
    (0 ≤ area_index (run s0 inps) ∧ area_index (run s0 inps) < s0.N * s0.N) ∧
    (0 ≤ loop_index (run s0 inps) ∧ loop_index (run s0 inps) < s0.ITER) ∧
    (0 ≤ (run s0 inps).index_x ∧ (run s0 inps).index_x < s0.N) ∧
    (0 ≤ (run s0 inps).index_y ∧ (run s0 inps).index_y < s0.N) ∧
    (0 ≤ (run s0 inps).cnt ∧ (run s0 inps).cnt < s0.N * s0.N * s0.ITER) ∧
    area_index (run s0 inps) = (run s0 inps).cnt / s0.ITER ∧
    loop_index (run s0 inps) = (run s0 inps).cnt % s0.ITER ∧
    (run s0 inps).cnt = area_index (run s0 inps) * s0.ITER + loop_index (run s0 inps) ∧
    (∀ j i : Int, 0 ≤ j → j < s0.N * s0.N → 0 ≤ i → i < s0.ITER →
      ∃! c : Int, (0 ≤ c ∧ c < s0.N * s0.N * s0.ITER) ∧ c / s0.ITER = j ∧ c % s0.ITER = i) ∧
    ((run s0 inps).exited = true →
      ∀ j i : Int, 0 ≤ j → j < s0.N * s0.N → 0 ≤ i → i < s0.ITER →
        ∃ inp : TickInput, (trialInputs s0 inps)[(j * s0.ITER + i).toNat]? = some inp ∧
          (run s0 inps).time_array j i = time1 inp ∧
          (run s0 inps).result_array j i = inp.result) := by
  obtain ⟨r1, r2, -, -, -, -, -, -, -⟩ := run_from_start s0 inps hN hI hc hx hy hex
  obtain ⟨hinv, -⟩ := run_inv s0 inps hN hI hc hx hy hex
  have hI0 : 0 < s0.ITER := by omega
  have hai := area_index_eq _ hinv
  have hli := loop_index_eq _ hinv.2.1 hinv.2.2.1
  obtain ⟨-, -, h0, hK, hix, hiy⟩ := hinv
  rw [r1, r2] at hK hix hiy
  rw [r2] at hai hli
  obtain ⟨b1, b2, b3, b4, -, b6⟩ := sweep_bounds s0.N s0.ITER (run s0 inps).cnt hN hI h0 hK
  refine ⟨by rw [hai]; exact b1, by rw [hli]; exact b4, by rw [hix]; exact b2,
    by rw [hiy]; exact b3, ⟨h0, hK⟩, hai, hli, by rw [hai, hli]; exact b6, ?_, ?_⟩
  · intro j i hj0 hj1 hi0 hi1
    obtain ⟨q, r⟩ := ediv_emod_of_eq j i s0.ITER hI0 hi0 hi1
    refine ⟨j * s0.ITER + i, ⟨entry_counter s0.N s0.ITER j i hI hj0 hj1 hi0 hi1, q, r⟩, ?_⟩
    rintro c ⟨-, hq, hr⟩
    have := Int.emod_add_ediv' c s0.ITER
    rw [hq, hr] at this
    omega
  · intro hexit j i hj0 hj1 hi0 hi1
    exact tables_at_exit s0 inps hN hI hc hx hy hex hexit j i hj0 hj1 hi0 hi1

/-- Claim C10 on the sweep `N = 2`, `ITER = 3` after twelve ready passes: the
write indices are inside the `4 x 3` tables, and the last entry holds the
values of a trial. -/
theorem C10_table_indexing_witness :
    area_index (run (readyState 2 3 0) (List.replicate 12 (quietInput true))) < 4 ∧
    loop_index (run (readyState 2 3 0) (List.replicate 12 (quietInput true))) < 3 ∧
    ∃ inp : TickInput,
      (run (readyState 2 3 0) (List.replicate 12 (quietInput true))).time_array 3 2
        = time1 inp ∧
      (run (readyState 2 3 0) (List.replicate 12 (quietInput true))).result_array 3 2
        = inp.result := by
  obtain ⟨h1, h2, -, -, -, -, -, -, -, h10⟩ := C10_table_indexing (readyState 2 3 0)
    (List.replicate 12 (quietInput true)) (by decide) (by decide) rfl rfl rfl rfl
  have hN : (readyState 2 3 0).N = 2 := rfl
  have hI : (readyState 2 3 0).ITER = 3 := rfl
  simp only [hN, hI] at h1 h2 h10
  have hexit : (run (readyState 2 3 0) (List.replicate 12 (quietInput true))).exited = true := by
    decide
  obtain ⟨inp, -, ht, hr⟩ := h10 hexit 3 2 (by norm_num) (by norm_num) (by norm_num) (by norm_num)
  exact ⟨by omega, h2.2, inp, ht, hr⟩


/-! ## The shape of the report -/

theorem digitChar_field :
    ∀ m : Nat, m < 10 → Nat.digitChar m ≠ ',' ∧ Nat.digitChar m ≠ '\n' := by
  decide

theorem toDigitsCore_field (fuel : Nat) : ∀ (n : Nat) (ds : List Char),
    (∀ c ∈ ds, c ≠ ',' ∧ c ≠ '\n') →
      ∀ c ∈ Nat.toDigitsCore 10 fuel n ds, c ≠ ',' ∧ c ≠ '\n' := by
  induction fuel with
  | zero => intro n ds h; simpa [Nat.toDigitsCore] using h
  | succ f ih =>
    intro n ds h
    have hd := digitChar_field (n % 10) (Nat.mod_lt _ (by decide))
    have hcons : ∀ c ∈ Nat.digitChar (n % 10) :: ds, c ≠ ',' ∧ c ≠ '\n' := by
      intro c hc
      rcases List.mem_cons.1 hc with rfl | hc
      · exact hd
      · exact h c hc
    simp only [Nat.toDigitsCore]
    split
    · exact hcons
    · exact ih _ _ hcons

theorem toDigits_field (n : Nat) : ∀ c ∈ Nat.toDigits 10 n, c ≠ ',' ∧ c ≠ '\n' :=
  toDigitsCore_field _ _ _ (by simp)

/-- A printed latency holds neither a comma nor a newline. -/
theorem fprintf_lf_field (x : Rat) : ∀ c ∈ fprintf_lf x, c ≠ ',' ∧ c ≠ '\n' := by
  intro c hc
  simp only [fprintf_lf, fractionDigits, List.mem_append, List.mem_singleton,
    List.mem_replicate] at hc
  rcases hc with ((hc | hc) | hc) | hc | hc
  · split at hc
    · rw [List.mem_singleton.1 hc]; decide
    · simp at hc
  · exact toDigits_field _ c hc
  · rw [hc]; decide
  · rw [hc.2]; decide
  · exact toDigits_field _ c hc

/-- A printed flag holds neither a comma nor a newline. -/
theorem fprintf_d_field (b : Bool) : ∀ c ∈ fprintf_d b, c ≠ ',' ∧ c ≠ '\n' := by
  cases b <;> decide

/-- Pieces that are each followed by a separator are the pieces separated by it,
with an empty piece at the end. -/
theorem flatMap_terminated (x : Char) (ls : List (List Char)) :
    ls.flatMap (fun l => l ++ [x]) = [x].intercalate (ls ++ [[]]) := by
  induction ls with
  | nil => rfl
  | cons l rest ih =>
    rw [List.flatMap_cons, ih]
    cases rest with
    | nil => simp [List.intercalate, List.intersperse]
    | cons r rs => simp [List.intercalate, List.intersperse]

/-- Splitting separator-terminated pieces gives the pieces and an empty one. -/
theorem splitOn_terminated (x : Char) (ls : List (List Char)) (h : ∀ l ∈ ls, x ∉ l) :
    List.splitOn x (ls.flatMap (fun l => l ++ [x])) = ls ++ [[]] := by
  rw [flatMap_terminated]
  apply List.splitOn_intercalate
  · intro l hl
    rcases List.mem_append.1 hl with hl | hl
    · exact h l hl
    · rw [List.mem_singleton.1 hl]
      exact List.not_mem_nil x
  · simp

theorem upto_length (n : Int) : (upto n).length = n.toNat := by
  simp [upto]

theorem upto_getElem? (n : Int) (i : Nat) (h : (i : Int) < n) : (upto n)[i]? = some (i : Int) := by
  rw [upto, List.getElem?_map, List.getElem?_range (by omega)]
  rfl

/-- The line of iteration `i`: the printed latencies of the cells, then the
printed flags of the cells, each followed by a comma, and the newline. -/
theorem writeLine_eq (s : State) (i : Int) :
    writeLine s i =
      (((upto (s.N * s.N)).map fun j => fprintf_lf (s.time_array j i)) ++
        ((upto (s.N * s.N)).map fun j => fprintf_d (s.result_array j i))).flatMap
          (fun f => f ++ [',']) ++ ['\n'] := by
  rw [writeLine, List.flatMap_append, List.flatMap_map, List.flatMap_map]

/-- The fields of a line hold no comma and the line holds no newline. -/
theorem line_fields (s : State) (i : Int) :
    (∀ f ∈ ((upto (s.N * s.N)).map fun j => fprintf_lf (s.time_array j i)) ++
        ((upto (s.N * s.N)).map fun j => fprintf_d (s.result_array j i)), ',' ∉ f) ∧
    '\n' ∉ (((upto (s.N * s.N)).map fun j => fprintf_lf (s.time_array j i)) ++
        ((upto (s.N * s.N)).map fun j => fprintf_d (s.result_array j i))).flatMap
          (fun f => f ++ [',']) := by
  have hf : ∀ f ∈ ((upto (s.N * s.N)).map fun j => fprintf_lf (s.time_array j i)) ++
      ((upto (s.N * s.N)).map fun j => fprintf_d (s.result_array j i)),
      ∀ c ∈ f, c ≠ ',' ∧ c ≠ '\n' := by
    intro f hf
    rcases List.mem_append.1 hf with hf | hf
    · obtain ⟨j, -, rfl⟩ := List.mem_map.1 hf
      exact fprintf_lf_field _
    · obtain ⟨j, -, rfl⟩ := List.mem_map.1 hf
      exact fprintf_d_field _
  constructor
  · intro f hfm hc
    exact (hf f hfm ',' hc).1 rfl
  · intro hc
    obtain ⟨f, hfm, hcf⟩ := List.mem_flatMap.1 hc
    rcases List.mem_append.1 hcf with hcf | hcf
    · exact (hf f hfm '\n' hcf).2 rfl
    · exact absurd (List.mem_singleton.1 hcf) (by decide)


/-- Claim C3, as stated, fails: with `N = 1` and `ITER = 1` the report is the
line `1.500000,1,` and the newline; split on commas the line has three pieces,
the last one empty, and not `2 * N * N = 2`. -/
theorem C3_counterexample :
    (run (readyState 1 1 0) [quietInput true]).fp = "1.500000,1,\n".toList ∧
    List.splitOn ',' "1.500000,1,".toList = ["1.500000".toList, "1".toList, []] ∧
    (List.splitOn ',' "1.500000,1,".toList).length ≠ 2 * 1 * 1 := by
  decide!

/-- Claim C3, amended: at sweep completion, with `N >= 1` and `ITER >= 1`, the
text written to the report consists of exactly `ITER` newline-terminated lines;
each line consists of exactly `2 * N * N` fields, every one of them followed by
a comma: the `N * N` latencies of that iteration in cell order (the latency of
cell `j` in iteration `i` being that of trial `j * ITER + i`), then the `N * N`
success flags in the same order; so a line split on commas has
`2 * N * N + 1` pieces, the last one empty. -/
theorem C3_report_shape (s0 : State) (inps : List TickInput) (hN : 1 ≤ s0.N)
    (hI : 1 ≤ s0.ITER) (hc : s0.cnt = 0) (hx : s0.index_x = 0) (hy : s0.index_y = 0)
    (hex : s0.exited = false) (hdone : (run s0 inps).exited = true) :
    ∃ lines : List (List Char),
      (run s0 inps).fp = s0.fp ++ lines.flatMap (fun l => l ++ ['\n']) ∧
      (lines.length : Int) = s0.ITER ∧
      List.splitOn '\n' (lines.flatMap (fun l => l ++ ['\n'])) = lines ++ [[]] ∧
      ∀ i : Nat, (i : Int) < s0.ITER →
        ∃ latencies flags : List (List Char),
          lines[i]? = some ((latencies ++ flags).flatMap (fun f => f ++ [','])) ∧
          List.splitOn ',' ((latencies ++ flags).flatMap (fun f => f ++ [','])) =
            latencies ++ flags ++ [[]] ∧
          (latencies.length : Int) = s0.N * s0.N ∧ (flags.length : Int) = s0.N * s0.N ∧
          ((latencies ++ flags).length : Int) = 2 * s0.N * s0.N ∧
          ∀ j : Nat, (j : Int) < s0.N * s0.N →
            ∃ inp : TickInput,
              (trialInputs s0 inps)[((j : Int) * s0.ITER + (i : Int)).toNat]? = some inp ∧
              latencies[j]? = some (fprintf_lf (time1 inp)) ∧
              flags[j]? = some (fprintf_d inp.result) := by
  obtain ⟨r1, r2, -, -, -, -, -, -, r8⟩ := run_from_start s0 inps hN hI hc hx hy hex
  have hlen := (run_inv s0 inps hN hI hc hx hy hex).2 hdone
  obtain ⟨-, -, -, -, hfp⟩ := r8 hlen
  have hNN : 0 ≤ s0.N * s0.N := by positivity
  refine ⟨(upto s0.ITER).map fun i =>
    (((upto (s0.N * s0.N)).map fun j => fprintf_lf ((run s0 inps).time_array j i)) ++
      ((upto (s0.N * s0.N)).map fun j => fprintf_d ((run s0 inps).result_array j i))).flatMap
        (fun f => f ++ [',']), ?_, ?_, ?_, ?_⟩
  · rw [hfp, writeReport, r2, List.flatMap_map]
    congr 1
    apply List.flatMap_congr
    intro i _
    rw [writeLine_eq, r1]
  · rw [List.length_map, upto_length]
    omega
  · apply splitOn_terminated
    intro l hl
    obtain ⟨i, -, rfl⟩ := List.mem_map.1 hl
    have := (line_fields (run s0 inps) i).2
    rwa [r1] at this
  · intro i hi
    refine ⟨(upto (s0.N * s0.N)).map fun j => fprintf_lf ((run s0 inps).time_array j i),
      (upto (s0.N * s0.N)).map fun j => fprintf_d ((run s0 inps).result_array j i),
      ?_, ?_, ?_, ?_, ?_, ?_⟩
    · rw [List.getElem?_map, upto_getElem? _ _ hi]
      rfl
    · apply splitOn_terminated
      have := (line_fields (run s0 inps) i).1
      rwa [r1] at this
    · rw [List.length_map, upto_length]
      omega
    · rw [List.length_map, upto_length]
      omega
    · rw [List.length_append, List.length_map, List.length_map, upto_length,
        show 2 * s0.N * s0.N = 2 * (s0.N * s0.N) by ring]
      omega
    · intro j hj
      obtain ⟨inp, h1, h2, h3⟩ := tables_at_exit s0 inps hN hI hc hx hy hex hdone j i
        (by omega) hj (by omega) hi
      refine ⟨inp, h1, ?_, ?_⟩
      · rw [List.getElem?_map, upto_getElem? _ _ hj, ← h2]
        rfl
      · rw [List.getElem?_map, upto_getElem? _ _ hj, ← h3]
        rfl

/-- Claim C3, amended, on the sweep `N = 2`, `ITER = 3` after twelve ready
passes: the report has three lines, and the first one has eight fields and,
split on commas, nine pieces. -/
theorem C3_report_shape_witness :
    ∃ lines : List (List Char),
      (run (readyState 2 3 0) (List.replicate 12 (quietInput true))).fp =
        lines.flatMap (fun l => l ++ ['\n']) ∧
      lines.length = 3 ∧
      ∃ fields : List (List Char),
        lines[0]? = some (fields.flatMap (fun f => f ++ [','])) ∧ fields.length = 8 ∧
        (List.splitOn ',' (fields.flatMap (fun f => f ++ [',']))).length = 9 := by
  have hexit : (run (readyState 2 3 0) (List.replicate 12 (quietInput true))).exited = true := by
    decide
  obtain ⟨lines, h1, h2, -, h4⟩ := C3_report_shape (readyState 2 3 0)
    (List.replicate 12 (quietInput true)) (by decide) (by decide) rfl rfl rfl rfl hexit
  have hN : (readyState 2 3 0).N = 2 := rfl
  have hI : (readyState 2 3 0).ITER = 3 := rfl
  have hfp : (readyState 2 3 0).fp = [] := rfl
  simp only [hN, hI] at h2 h4
  obtain ⟨lat, flags, g1, g2, -, -, g5, -⟩ := h4 0 (by norm_num)
  rw [hfp, List.nil_append] at h1
  have g5' : (lat ++ flags).length = 8 := by omega
  refine ⟨lines, h1, by omega, lat ++ flags, g1, g5', ?_⟩
  rw [g2, List.length_append, List.length_singleton, g5']

end AstarNavi
